import Mathlib

/-!
# LPC43xx I2C driver (`i2c_001.h`, `chip.h`): embedding of the headers and of the engines

The header `Includes/i2c_001.h` declares the register block `IP_I2C_001_T`,
the control/status constants, the request records `I2C_M_SETUP_T` and
`I2C_S_SETUP_T`, and three inline functions that write the control
registers.  These are translated from the header.  The status interpreter and
the master and slave transfer engines are only declared there; their bodies
are in the driver source, so they are modelled from the specification and
marked as such.  Of `chip.h` the peripheral base addresses are taken.  Machine
words are natural numbers; a 32-bit register value is a natural number below
`2 ^ 32`.
-/

namespace I2C

/-! ## Constants of `i2c_001.h` -/

/-- `#define I2C_I2CONSET_AA ((0x04))`: assert acknowledge flag. -/
def I2C_I2CONSET_AA : Nat := 0x04
/-- `#define I2C_I2CONSET_SI ((0x08))`: I2C interrupt flag. -/
def I2C_I2CONSET_SI : Nat := 0x08
/-- `#define I2C_I2CONSET_STO ((0x10))`: STOP flag. -/
def I2C_I2CONSET_STO : Nat := 0x10
/-- `#define I2C_I2CONSET_STA ((0x20))`: START flag. -/
def I2C_I2CONSET_STA : Nat := 0x20
/-- `#define I2C_I2CONSET_I2EN ((0x40))`: I2C interface enable. -/
def I2C_I2CONSET_I2EN : Nat := 0x40

/-- `#define I2C_I2CONCLR_AAC ((1 << 2))`: assert acknowledge clear bit. -/
def I2C_I2CONCLR_AAC : Nat := 1 <<< 2
/-- `#define I2C_I2CONCLR_SIC ((1 << 3))`: I2C interrupt clear bit. -/
def I2C_I2CONCLR_SIC : Nat := 1 <<< 3
/-- `#define I2C_I2CONCLR_STOC ((1 << 4))`: I2C STOP clear bit. -/
def I2C_I2CONCLR_STOC : Nat := 1 <<< 4
/-- `#define I2C_I2CONCLR_STAC ((1 << 5))`: START flag clear bit. -/
def I2C_I2CONCLR_STAC : Nat := 1 <<< 5
/-- `#define I2C_I2CONCLR_I2ENC ((1 << 6))`: I2C interface disable bit. -/
def I2C_I2CONCLR_I2ENC : Nat := 1 <<< 6

/-- `#define I2C_STAT_CODE_BITMASK ((0xF8))`: return code mask in the status register. -/
def I2C_STAT_CODE_BITMASK : Nat := 0xF8
/-- `#define I2C_STAT_CODE_ERROR ((0xFF))`: return code error mask. -/
def I2C_STAT_CODE_ERROR : Nat := 0xFF

def I2C_I2STAT_NO_INF : Nat := 0xF8
def I2C_I2STAT_BUS_ERROR : Nat := 0x00
def I2C_I2STAT_M_TX_START : Nat := 0x08
def I2C_I2STAT_M_TX_RESTART : Nat := 0x10
def I2C_I2STAT_M_TX_SLAW_ACK : Nat := 0x18
def I2C_I2STAT_M_TX_SLAW_NACK : Nat := 0x20
def I2C_I2STAT_M_TX_DAT_ACK : Nat := 0x28
def I2C_I2STAT_M_TX_DAT_NACK : Nat := 0x30
def I2C_I2STAT_M_TX_ARB_LOST : Nat := 0x38
def I2C_I2STAT_M_RX_START : Nat := 0x08
def I2C_I2STAT_M_RX_RESTART : Nat := 0x10
def I2C_I2STAT_M_RX_ARB_LOST : Nat := 0x38
def I2C_I2STAT_M_RX_SLAR_ACK : Nat := 0x40
def I2C_I2STAT_M_RX_SLAR_NACK : Nat := 0x48
def I2C_I2STAT_M_RX_DAT_ACK : Nat := 0x50
def I2C_I2STAT_M_RX_DAT_NACK : Nat := 0x58
def I2C_I2STAT_S_RX_SLAW_ACK : Nat := 0x60
def I2C_I2STAT_S_RX_ARB_LOST_M_SLA : Nat := 0x68
def I2C_I2STAT_S_RX_GENCALL_ACK : Nat := 0x70
def I2C_I2STAT_S_RX_ARB_LOST_M_GENCALL : Nat := 0x78
def I2C_I2STAT_S_RX_PRE_SLA_DAT_ACK : Nat := 0x80
def I2C_I2STAT_S_RX_PRE_SLA_DAT_NACK : Nat := 0x88
def I2C_I2STAT_S_RX_PRE_GENCALL_DAT_ACK : Nat := 0x90
def I2C_I2STAT_S_RX_PRE_GENCALL_DAT_NACK : Nat := 0x98
def I2C_I2STAT_S_RX_STA_STO_SLVREC_SLVTRX : Nat := 0xA0
def I2C_I2STAT_S_TX_SLAR_ACK : Nat := 0xA8
def I2C_I2STAT_S_TX_ARB_LOST_M_SLA : Nat := 0xB0
def I2C_I2STAT_S_TX_DAT_ACK : Nat := 0xB8
def I2C_I2STAT_S_TX_DAT_NACK : Nat := 0xC0
def I2C_I2STAT_S_TX_LAST_DAT_ACK : Nat := 0xC8

/-- `#define I2C_I2DAT_BITMASK ((0xFF))`: mask for the data register. -/
def I2C_I2DAT_BITMASK : Nat := 0xFF
/-- `#define I2C_I2DAT_IDLE_CHAR (0xFF)`: idle value sent in slave mode once the
transmit data is used up. -/
def I2C_I2DAT_IDLE_CHAR : Nat := 0xFF

/-- `#define I2C_I2ADR_GC ((1 << 0))`: general call enable bit. -/
def I2C_I2ADR_GC : Nat := 1 <<< 0
/-- `#define I2C_I2ADR_BITMASK ((0xFF))`. -/
def I2C_I2ADR_BITMASK : Nat := 0xFF
/-- `#define I2C_I2MASK_MASK(n) ((n & 0xFE))`, at a single-variable argument. -/
def I2C_I2MASK_MASK (n : Nat) : Nat := n &&& 0xFE

def I2C_SETUP_STATUS_ARBF : Nat := 1 <<< 8
def I2C_SETUP_STATUS_NOACKF : Nat := 1 <<< 9
def I2C_SETUP_STATUS_DONE : Nat := 1 <<< 10

/-! State handle return values. -/
def I2C_OK : Nat := 0x00
def I2C_BYTE_SENT : Nat := 0x01
def I2C_BYTE_RECV : Nat := 0x02
def I2C_LAST_BYTE_RECV : Nat := 0x04
def I2C_SEND_END : Nat := 0x08
def I2C_RECV_END : Nat := 0x10
def I2C_STA_STO_RECV : Nat := 0x20
def I2C_ERR : Nat := 0x10000000
def I2C_NAK_RECV : Nat := 0x10000000 ||| 0x01

/-- `#define I2C_CheckError(ErrorCode) (ErrorCode & 0x10000000)`. -/
def I2C_CheckError (ErrorCode : Nat) : Nat := ErrorCode &&& 0x10000000

/-! ## Register block and the inline enable/disable functions -/

/-- The registers of `IP_I2C_001_T`, in declaration order. -/
inductive Reg
  | CONSET | STAT | DAT | ADR0 | SCLH | SCLL | CONCLR | MMCTRL
  | ADR1 | ADR2 | ADR3 | DATA_BUFFER | MASK (i : Fin 4)
  deriving DecidableEq

/-- The five control flags named by the CONSET/CONCLR descriptions. -/
inductive CtrlFlag
  | AA | SI | STO | STA | I2EN
  deriving DecidableEq

/-- The `I2C_I2CONSET_*` mask of a control flag. -/
def CtrlFlag.setMask : CtrlFlag → Nat
  | .AA => I2C_I2CONSET_AA
  | .SI => I2C_I2CONSET_SI
  | .STO => I2C_I2CONSET_STO
  | .STA => I2C_I2CONSET_STA
  | .I2EN => I2C_I2CONSET_I2EN

/-- The `I2C_I2CONCLR_*` mask of a control flag. -/
def CtrlFlag.clrMask : CtrlFlag → Nat
  | .AA => I2C_I2CONCLR_AAC
  | .SI => I2C_I2CONCLR_SIC
  | .STO => I2C_I2CONCLR_STOC
  | .STA => I2C_I2CONCLR_STAC
  | .I2EN => I2C_I2CONCLR_I2ENC

/-- Bit position of a control flag in the control register. -/
def CtrlFlag.bit : CtrlFlag → Nat
  | .AA => 2
  | .SI => 3
  | .STO => 4
  | .STA => 5
  | .I2EN => 6

/-- Effect on the 32-bit control register of writing `v` to `CONSET` (comment
of the `CONSET` field: a one written to a bit sets the corresponding control
bit, a zero has no effect): `ctrl | v`. -/
def consetWrite (ctrl v : Nat) : Nat := (ctrl ||| v) % 2 ^ 32

/-- Effect on the 32-bit control register of writing `v` to `CONCLR` (comment
of the `CONCLR` field: a one written to a bit clears the corresponding control
bit, a zero has no effect): `ctrl & ~v`, the complement taken on 32 bits. -/
def conclrWrite (ctrl v : Nat) : Nat := ctrl &&& ((2 ^ 32 - 1) ^^^ (v % 2 ^ 32))

/-- Contents of one I2C register block: the control register (read through
`CONSET`, changed through `CONSET` and `CONCLR`) and the other registers. -/
structure IP_I2C_001_T where
  CON : Nat
  STAT : Nat
  DAT : Nat
  ADR0 : Nat
  SCLH : Nat
  SCLL : Nat
  MMCTRL : Nat
  ADR1 : Nat
  ADR2 : Nat
  ADR3 : Nat
  DATA_BUFFER : Nat
  MASK : Fin 4 → Nat

/-- One store `pI2C->reg = val`. -/
structure RegWrite where
  reg : Reg
  val : Nat
  deriving DecidableEq

/-- Effect of one register store on the block.  `STAT` and `DATA_BUFFER` are
read-only (`__I`), so a store to them changes nothing. -/
def IP_I2C_001_T.store (p : IP_I2C_001_T) (w : RegWrite) : IP_I2C_001_T :=
  match w.reg with
  | .CONSET => { p with CON := consetWrite p.CON w.val }
  | .CONCLR => { p with CON := conclrWrite p.CON w.val }
  | .STAT => p
  | .DATA_BUFFER => p
  | .DAT => { p with DAT := w.val % 2 ^ 32 }
  | .ADR0 => { p with ADR0 := w.val % 2 ^ 32 }
  | .SCLH => { p with SCLH := w.val % 2 ^ 32 }
  | .SCLL => { p with SCLL := w.val % 2 ^ 32 }
  | .MMCTRL => { p with MMCTRL := w.val % 2 ^ 32 }
  | .ADR1 => { p with ADR1 := w.val % 2 ^ 32 }
  | .ADR2 => { p with ADR2 := w.val % 2 ^ 32 }
  | .ADR3 => { p with ADR3 := w.val % 2 ^ 32 }
  | .MASK i => { p with MASK := Function.update p.MASK i (w.val % 2 ^ 32) }

/-- Run a sequence of stores, first to last. -/
def IP_I2C_001_T.run (p : IP_I2C_001_T) (ws : List RegWrite) : IP_I2C_001_T :=
  ws.foldl IP_I2C_001_T.store p

/-- Body of `IP_I2C_Master_Enable`: `pI2C->CONSET = I2C_I2CONSET_I2EN;`. -/
def IP_I2C_Master_Enable : List RegWrite :=
  [⟨.CONSET, I2C_I2CONSET_I2EN⟩]

/-- Body of `IP_I2C_Slave_Enable`:
`pI2C->CONSET = I2C_I2CONSET_I2EN | I2C_I2CONSET_AA;`. -/
def IP_I2C_Slave_Enable : List RegWrite :=
  [⟨.CONSET, I2C_I2CONSET_I2EN ||| I2C_I2CONSET_AA⟩]

/-- Body of `IP_I2C_Disable`: `pI2C->CONCLR = I2C_I2CONCLR_I2ENC;`. -/
def IP_I2C_Disable : List RegWrite :=
  [⟨.CONCLR, I2C_I2CONCLR_I2ENC⟩]


/-! ## Status code interpreter -/

/-- The named protocol events of the status register, one per `I2C_I2STAT_*`
constant of the header. -/
inductive StatusCategory
  | no_inf | bus_error
  | m_tx_start | m_tx_restart | m_tx_slaw_ack | m_tx_slaw_nack
  | m_tx_dat_ack | m_tx_dat_nack | m_tx_arb_lost
  | m_rx_start | m_rx_restart | m_rx_arb_lost | m_rx_slar_ack | m_rx_slar_nack
  | m_rx_dat_ack | m_rx_dat_nack
  | s_rx_slaw_ack | s_rx_arb_lost_m_sla | s_rx_gencall_ack | s_rx_arb_lost_m_gencall
  | s_rx_pre_sla_dat_ack | s_rx_pre_sla_dat_nack
  | s_rx_pre_gencall_dat_ack | s_rx_pre_gencall_dat_nack
  | s_rx_sta_sto_slvrec_slvtrx
  | s_tx_slar_ack | s_tx_arb_lost_m_sla | s_tx_dat_ack | s_tx_dat_nack
  | s_tx_last_dat_ack
  deriving DecidableEq

/-- The `I2C_I2STAT_*` constants in the order of the header, each with the
category it names. -/
def namedCodes : List (StatusCategory × Nat) :=
  [ (.no_inf, I2C_I2STAT_NO_INF),
    (.bus_error, I2C_I2STAT_BUS_ERROR),
    (.m_tx_start, I2C_I2STAT_M_TX_START),
    (.m_tx_restart, I2C_I2STAT_M_TX_RESTART),
    (.m_tx_slaw_ack, I2C_I2STAT_M_TX_SLAW_ACK),
    (.m_tx_slaw_nack, I2C_I2STAT_M_TX_SLAW_NACK),
    (.m_tx_dat_ack, I2C_I2STAT_M_TX_DAT_ACK),
    (.m_tx_dat_nack, I2C_I2STAT_M_TX_DAT_NACK),
    (.m_tx_arb_lost, I2C_I2STAT_M_TX_ARB_LOST),
    (.m_rx_start, I2C_I2STAT_M_RX_START),
    (.m_rx_restart, I2C_I2STAT_M_RX_RESTART),
    (.m_rx_arb_lost, I2C_I2STAT_M_RX_ARB_LOST),
    (.m_rx_slar_ack, I2C_I2STAT_M_RX_SLAR_ACK),
    (.m_rx_slar_nack, I2C_I2STAT_M_RX_SLAR_NACK),
    (.m_rx_dat_ack, I2C_I2STAT_M_RX_DAT_ACK),
    (.m_rx_dat_nack, I2C_I2STAT_M_RX_DAT_NACK),
    (.s_rx_slaw_ack, I2C_I2STAT_S_RX_SLAW_ACK),
    (.s_rx_arb_lost_m_sla, I2C_I2STAT_S_RX_ARB_LOST_M_SLA),
    (.s_rx_gencall_ack, I2C_I2STAT_S_RX_GENCALL_ACK),
    (.s_rx_arb_lost_m_gencall, I2C_I2STAT_S_RX_ARB_LOST_M_GENCALL),
    (.s_rx_pre_sla_dat_ack, I2C_I2STAT_S_RX_PRE_SLA_DAT_ACK),
    (.s_rx_pre_sla_dat_nack, I2C_I2STAT_S_RX_PRE_SLA_DAT_NACK),
    (.s_rx_pre_gencall_dat_ack, I2C_I2STAT_S_RX_PRE_GENCALL_DAT_ACK),
    (.s_rx_pre_gencall_dat_nack, I2C_I2STAT_S_RX_PRE_GENCALL_DAT_NACK),
    (.s_rx_sta_sto_slvrec_slvtrx, I2C_I2STAT_S_RX_STA_STO_SLVREC_SLVTRX),
    (.s_tx_slar_ack, I2C_I2STAT_S_TX_SLAR_ACK),
    (.s_tx_arb_lost_m_sla, I2C_I2STAT_S_TX_ARB_LOST_M_SLA),
    (.s_tx_dat_ack, I2C_I2STAT_S_TX_DAT_ACK),
    (.s_tx_dat_nack, I2C_I2STAT_S_TX_DAT_NACK),
    (.s_tx_last_dat_ack, I2C_I2STAT_S_TX_LAST_DAT_ACK) ]

/-- Modelled from the spec: the Status Code Interpreter (the header gives only
the constants; the function that classifies a status is in the driver source,
which is not part of the headers).  Spec 4.1: given a raw status value it
returns the named event category; values outside the known set map to the
"no relevant information" category.  The raw value is masked with
`I2C_STAT_CODE_BITMASK` and looked up among the named constants in header
order, so a value shared by a master-transmit and a master-receive constant
is reported under the master-transmit name. -/
def I2C_InterpretStatus (stat : Nat) : StatusCategory :=
  match namedCodes.find? (fun e => e.2 == (stat &&& I2C_STAT_CODE_BITMASK)) with
  | some e => e.1
  | none => .no_inf

/-! ## Transfer records of the header -/

/-- `I2C_M_SETUP_T`: master transfer setup.  A data pointer is the buffer it
points to. -/
structure I2C_M_SETUP_T where
  sl_addr7bit : Nat
  tx_data : List Nat
  tx_length : Nat
  tx_count : Nat
  rx_data : List Nat
  rx_length : Nat
  rx_count : Nat
  retransmissions_max : Nat
  retransmissions_count : Nat
  status : Nat
  deriving DecidableEq

/-- `I2C_S_SETUP_T`: slave transfer setup. -/
structure I2C_S_SETUP_T where
  tx_data : List Nat
  tx_length : Nat
  tx_count : Nat
  rx_data : List Nat
  rx_length : Nat
  rx_count : Nat
  status : Nat
  deriving DecidableEq

/-- `IP_I2C_TRANSFER_OPT_T`. -/
inductive IP_I2C_TRANSFER_OPT_T
  | I2C_TRANSFER_POLLING
  | I2C_TRANSFER_INTERRUPT
  deriving DecidableEq

/-- Modelled from the spec: the return type `Status` of the transfer functions
(its declaration is in `lpc_types.h`, which is not among the headers here; the
header documents the return value as "SUCCESS or ERROR"). -/
inductive Status
  | ERROR
  | SUCCESS
  deriving DecidableEq

/-! ## Transfer engines -/

/-- Modelled from the spec: the low-level bus commands an engine issues (spec
2 and 6: start or restart, stop, acknowledge, not-acknowledge) and the byte it
hands to the data register; the engines that issue them are in the driver
source, which is not part of the headers. -/
inductive BusAction
  | start
  | stop
  | sendByte (b : Nat)
  | ack
  | nack
  deriving DecidableEq

/-- Modelled from the spec: one access of an engine (not part of the headers)
to a request buffer, a read of `tx_data[i]` or a write of `rx_data[i]`. -/
inductive BufAccess
  | txRead (i : Nat)
  | rxWrite (i : Nat)
  deriving DecidableEq

/-- Modelled from the spec: the events of the master engine (the engine is not
part of the headers), one per case of the per-event algorithm of spec 4.2.
"Address acked" is split by the direction of the acknowledged address
(the categories master-tx slaw-ack and master-rx slar-ack of spec 3);
`fatal` stands for the bus-error and no-relevant-information categories.
"Last byte received" is not an event of its own here: it is the case of
`dataReceived` in which the byte is the final expected one. -/
inductive MasterEvent
  | startTransmitted
  | addressAckedW
  | addressAckedR
  | addressNacked
  | dataAcked
  | dataNacked
  | dataReceived (b : Nat)
  | arbitrationLost
  | fatal
  deriving DecidableEq

/-- Modelled from the spec: the result of a master engine step (the engine is
not part of the headers): the updated request, the bus commands issued and the
buffer accesses made, each in order. -/
structure MasterOut where
  cfg : I2C_M_SETUP_T
  bus : List BusAction
  mem : List BufAccess
  deriving DecidableEq

/-- Modelled from the spec: the terminal statuses of a master request (spec 3;
the engine that tests them is not part of the headers): send-complete,
receive-complete, or any status with the error flag (error, nack-received). -/
def I2C_MasterTerminal (status : Nat) : Bool :=
  status == I2C_SEND_END || status == I2C_RECV_END || I2C_CheckError status != 0

/-- Modelled from the spec: the "address acked, transmit exhausted" branch of
the master engine (spec 4.2; the engine is in the driver source, which is not
part of the headers): if a receive length is requested, issue a restart, else
issue stop and mark send-complete. -/
def I2C_MasterTxExhausted (r : I2C_M_SETUP_T) : MasterOut :=
  if 0 < r.rx_length then ⟨r, [.start], []⟩
  else ⟨{ r with status := I2C_SEND_END }, [.stop], []⟩

/-- Modelled from the spec: "send next transmit byte" of the master engine
(spec 4.2; the engine is not part of the headers): the byte at the transmit
counter goes to the data register. -/
def I2C_MasterSendNext (r : I2C_M_SETUP_T) : MasterOut :=
  ⟨r, [.sendByte (r.tx_data.getD r.tx_count 0)], [.txRead r.tx_count]⟩

/-- Modelled from the spec: the per-event algorithm of the Master Transfer
Engine (spec 4.2; the state handler is in the driver source, which is not part
of the headers).
* start/restart transmitted: send the address byte, direction bit set when the
  transmit buffer is exhausted;
* address acked (write): if transmit length remains send the next byte, else
  the transmit-exhausted branch; address acked (read): wait for data;
* address nacked: if the retry counter is below the maximum, count a retry and
  re-issue start, else mark nack-received and issue stop;
* data byte acked: advance the transmit counter; if exhausted the
  transmit-exhausted branch, else send the next byte;
* data byte nacked: issue stop, mark error;
* data byte received: store it at the receive counter and advance the counter;
  acknowledge unless it is the final expected byte; the final byte is
  not-acknowledged and, being the last byte received, followed by stop and
  receive-complete;
* arbitration lost, bus error, no relevant information: mark error.
The spec puts no test in front of the two counter advances: the engine takes
each data-acked and each data-received event as the bus reports it. -/
def I2C_MasterHandleEvent (ev : MasterEvent) (r : I2C_M_SETUP_T) : MasterOut :=
  match ev with
  | .startTransmitted =>
    if r.tx_count < r.tx_length then ⟨r, [.sendByte (r.sl_addr7bit <<< 1)], []⟩
    else ⟨r, [.sendByte ((r.sl_addr7bit <<< 1) ||| 0x01)], []⟩
  | .addressAckedW =>
    if r.tx_count < r.tx_length then I2C_MasterSendNext r
    else I2C_MasterTxExhausted r
  | .addressAckedR => ⟨r, [], []⟩
  | .addressNacked =>
    if r.retransmissions_count < r.retransmissions_max then
      ⟨{ r with retransmissions_count := r.retransmissions_count + 1 }, [.start], []⟩
    else ⟨{ r with status := I2C_NAK_RECV }, [.stop], []⟩
  | .dataAcked =>
    let r1 := { r with tx_count := r.tx_count + 1 }
    if r1.tx_count < r1.tx_length then I2C_MasterSendNext r1
    else I2C_MasterTxExhausted r1
  | .dataNacked => ⟨{ r with status := I2C_ERR }, [.stop], []⟩
  | .dataReceived b =>
    let r1 := { r with rx_data := r.rx_data.set r.rx_count b, rx_count := r.rx_count + 1 }
    if r1.rx_count < r1.rx_length then ⟨r1, [.ack], [.rxWrite r.rx_count]⟩
    else ⟨{ r1 with status := I2C_RECV_END }, [.nack, .stop], [.rxWrite r.rx_count]⟩
  | .arbitrationLost => ⟨{ r with status := I2C_ERR }, [], []⟩
  | .fatal => ⟨{ r with status := I2C_ERR }, [], []⟩

/-- Modelled from the spec: dispatch of one event to the master engine (spec
4.4 and the write-once invariant of spec 3; not part of the headers): once the
request status is terminal the engine is no longer armed and the event is
cleared with no further action. -/
def I2C_MasterDispatch (ev : MasterEvent) (r : I2C_M_SETUP_T) : MasterOut :=
  if I2C_MasterTerminal r.status then ⟨r, [], []⟩ else I2C_MasterHandleEvent ev r

/-- Modelled from the spec: the master engine (not part of the headers) over a
sequence of dispatched events, first to last (spec 5: events of one instance
are strictly serialized). -/
def I2C_MasterRun : List MasterEvent → I2C_M_SETUP_T → MasterOut
  | [], r => ⟨r, [], []⟩
  | ev :: evs, r =>
    let o1 := I2C_MasterDispatch ev r
    let o2 := I2C_MasterRun evs o1.cfg
    ⟨o2.cfg, o1.bus ++ o2.bus, o1.mem ++ o2.mem⟩

/-- Modelled from the spec: what a call of `IP_I2C_MasterTransferData` (body not
part of the headers) leaves behind: the returned `Status` (`none` when the
polling loop is still waiting for an event the sequence does not hold), the
request and the bus commands issued. -/
structure MasterResult where
  ret : Option Status
  cfg : I2C_M_SETUP_T
  bus : List BusAction
  deriving DecidableEq

/-- Modelled from the spec: `begin_master_transfer`, declared in the header as
`IP_I2C_MasterTransferData` (its body is in the driver source, which is not
part of the headers).  Spec 4.2: a request with zero-length transmit and
zero-length receive fails immediately, never touching the bus.  Otherwise the
request is marked in-progress and a start is issued; in event-driven mode the
call returns at once, in polling mode it dispatches the events until the status
is terminal and returns success (send-complete, receive-complete) or error. -/
def IP_I2C_MasterTransferData (TransferCfg : I2C_M_SETUP_T) (Opt : IP_I2C_TRANSFER_OPT_T)
    (events : List MasterEvent) : MasterResult :=
  if TransferCfg.tx_length = 0 ∧ TransferCfg.rx_length = 0 then
    ⟨some .ERROR, TransferCfg, []⟩
  else
    let armed := { TransferCfg with status := I2C_OK }
    match Opt with
    | .I2C_TRANSFER_INTERRUPT => ⟨some .SUCCESS, armed, [.start]⟩
    | .I2C_TRANSFER_POLLING =>
      let o := I2C_MasterRun events armed
      let ret :=
        if o.cfg.status = I2C_SEND_END ∨ o.cfg.status = I2C_RECV_END then some Status.SUCCESS
        else if I2C_CheckError o.cfg.status ≠ 0 then some Status.ERROR
        else none
      ⟨ret, o.cfg, .start :: o.bus⟩

/-- Modelled from the spec: the events of the slave engine (the engine is not
part of the headers), as spec 4.3 names them: an address match for a write to
this slave (own address or general call), a data byte received, an address
match for a read from this slave, a transmitted byte acknowledged by the
master (it clocks out a further byte), a transmitted byte not acknowledged
(the master ends the read), a STOP or repeated START, the end of the bounded
wait with no further bus activity, and `fatal` for the bus-error and
no-relevant-information categories. -/
inductive SlaveEvent
  | addressedWrite
  | dataReceived (b : Nat)
  | addressedRead
  | dataAcked
  | dataNacked
  | stopOrRestart
  | timeout
  | fatal
  deriving DecidableEq

/-- Modelled from the spec: the SlaveTransferContext as the slave engine keeps
it (spec 3, 4.3; the engine is in the driver source, which is not part of the
headers): the `I2C_S_SETUP_T` record of the header and whether the context is
the active one of its instance (spec 3, PeripheralInstanceState). -/
structure SlaveContext where
  cfg : I2C_S_SETUP_T
  active : Bool
  deriving DecidableEq

/-- Modelled from the spec: the result of a slave engine step (the engine is not
part of the headers): the updated context, the bus commands issued and the
buffer accesses made, each in order. -/
structure SlaveOut where
  ctx : SlaveContext
  bus : List BusAction
  mem : List BufAccess
  deriving DecidableEq

/-- Modelled from the spec: the slave engine (not part of the headers) is in
the bounded wait of spec 4.3 when the context status carries the
start-or-stop-seen flag `I2C_STA_STO_RECV`. -/
def I2C_SlaveWaiting (status : Nat) : Bool := status &&& I2C_STA_STO_RECV != 0

/-- Modelled from the spec: the slave engine (not part of the headers) leaves
the bounded wait by clearing the start-or-stop-seen flag,
`status & ~I2C_STA_STO_RECV` on 32 bits; every other flag of the status
stays. -/
def I2C_SlaveClearWait (status : Nat) : Nat :=
  status &&& ((2 ^ 32 - 1) ^^^ I2C_STA_STO_RECV)

/-- Modelled from the spec: the slave engine transmits from the transmit
buffer byte by byte and, once it is exhausted, the idle-fill byte
`I2C_I2DAT_IDLE_CHAR` (spec 4.3 and the note of `IP_I2C_SlaveTransferData` in
the header; the engine itself is not part of the headers). -/
def I2C_SlaveSendNext (c : SlaveContext) : SlaveOut :=
  if c.cfg.tx_count < c.cfg.tx_length then
    ⟨{ c with cfg := { c.cfg with tx_count := c.cfg.tx_count + 1 } },
      [.sendByte (c.cfg.tx_data.getD c.cfg.tx_count 0)], [.txRead c.cfg.tx_count]⟩
  else ⟨c, [.sendByte I2C_I2DAT_IDLE_CHAR], []⟩

/-- Modelled from the spec: the per-event algorithm of the Slave Transfer
Engine (spec 4.3; the state handler is in the driver source, which is not part
of the headers).  The context status is a set of flags.  `overflowFlag` is the
status flag by which the status reflects overflow (spec 4.3, 7); the header
defines no status value for it, so it is a parameter.
* slave-write address match: acknowledge; a match during the bounded wait is a
  repeated START and continues the session;
* data received: while buffer space remains store the byte, advance the
  receive counter and acknowledge; once the buffer is exhausted accept the
  byte, keep acknowledging, drop the payload and set the overflow flag in the
  status;
* slave-read address match, transmitted byte acknowledged: transmit the next
  byte or the idle-fill byte;
* transmitted byte not acknowledged: nothing to send;
* STOP or repeated START: set start-or-stop-seen in the status and arm the
  bounded wait;
* timeout of the bounded wait: STOP is concluded, the context returns to idle;
* bus error, no relevant information: set the error flag in the status. -/
def I2C_SlaveHandleEvent (overflowFlag : Nat) (ev : SlaveEvent) (c : SlaveContext) :
    SlaveOut :=
  match ev with
  | .addressedWrite =>
    if I2C_SlaveWaiting c.cfg.status then
      ⟨{ c with cfg := { c.cfg with status := I2C_SlaveClearWait c.cfg.status } }, [.ack], []⟩
    else ⟨c, [.ack], []⟩
  | .dataReceived b =>
    if c.cfg.rx_count < c.cfg.rx_length then
      ⟨{ c with cfg := { c.cfg with rx_data := c.cfg.rx_data.set c.cfg.rx_count b,
                                    rx_count := c.cfg.rx_count + 1 } },
        [.ack], [.rxWrite c.cfg.rx_count]⟩
    else ⟨{ c with cfg := { c.cfg with status := c.cfg.status ||| overflowFlag } }, [.ack], []⟩
  | .addressedRead =>
    if I2C_SlaveWaiting c.cfg.status then
      I2C_SlaveSendNext { c with cfg := { c.cfg with status := I2C_SlaveClearWait c.cfg.status } }
    else I2C_SlaveSendNext c
  | .dataAcked => I2C_SlaveSendNext c
  | .dataNacked => ⟨c, [], []⟩
  | .stopOrRestart =>
    ⟨{ c with cfg := { c.cfg with status := c.cfg.status ||| I2C_STA_STO_RECV } }, [], []⟩
  | .timeout =>
    if I2C_SlaveWaiting c.cfg.status then ⟨{ c with active := false }, [], []⟩
    else ⟨c, [], []⟩
  | .fatal => ⟨{ c with cfg := { c.cfg with status := c.cfg.status ||| I2C_ERR } }, [], []⟩

/-- Modelled from the spec: dispatch of one event to the slave engine (spec
4.4; not part of the headers): an event for a context that is not active, or
whose status carries the error flag, is cleared with no further action. -/
def I2C_SlaveDispatch (overflowFlag : Nat) (ev : SlaveEvent) (c : SlaveContext) : SlaveOut :=
  if c.active = false ∨ I2C_CheckError c.cfg.status ≠ 0 then ⟨c, [], []⟩
  else I2C_SlaveHandleEvent overflowFlag ev c

/-- Modelled from the spec: the slave engine (not part of the headers) over a
sequence of dispatched events, first to last. -/
def I2C_SlaveRun (overflowFlag : Nat) : List SlaveEvent → SlaveContext → SlaveOut
  | [], c => ⟨c, [], []⟩
  | ev :: evs, c =>
    let o1 := I2C_SlaveDispatch overflowFlag ev c
    let o2 := I2C_SlaveRun overflowFlag evs o1.ctx
    ⟨o2.ctx, o1.bus ++ o2.bus, o1.mem ++ o2.mem⟩

/-- Modelled from the spec: `handle_slave_transfer`, declared in the header as
`IP_I2C_SlaveTransferData` (its body is in the driver source, which is not part
of the headers).  Spec 4.3: the context becomes the active one of the
instance, in progress with no flag set; in event-driven mode the call returns
at once, in polling mode the engine serves the dispatched events. -/
def IP_I2C_SlaveTransferData (overflowFlag : Nat) (TransferCfg : I2C_S_SETUP_T)
    (Opt : IP_I2C_TRANSFER_OPT_T) (events : List SlaveEvent) : SlaveOut :=
  match Opt with
  | .I2C_TRANSFER_INTERRUPT => ⟨⟨{ TransferCfg with status := I2C_OK }, true⟩, [], []⟩
  | .I2C_TRANSFER_POLLING =>
    I2C_SlaveRun overflowFlag events ⟨{ TransferCfg with status := I2C_OK }, true⟩

/-! ## Auxiliary definitions for the statements -/

/-- The buffer `l` after the bytes `bs` were stored one by one from index `i` on. -/
def storeFrom (l : List Nat) : Nat → List Nat → List Nat
  | _, [] => l
  | i, b :: bs => storeFrom (l.set i b) (i + 1) bs

/-- The address byte the master engine sends after a start: the 7-bit address
shifted left, with the read bit when the transmit buffer is exhausted. -/
def I2C_MasterAddressByte (r : I2C_M_SETUP_T) : Nat :=
  if r.tx_count < r.tx_length then r.sl_addr7bit <<< 1 else (r.sl_addr7bit <<< 1) ||| 0x01

/-- The events of `m` address attempts that are all not acknowledged: each
start is followed by an address nack. -/
def addressNackRounds : Nat → List MasterEvent
  | 0 => []
  | m + 1 => .startTransmitted :: .addressNacked :: addressNackRounds m

/-- The bus commands of `m` address attempts that are each followed by a
retransmission: the address byte `a`, then a new start. -/
def retryTrace (a : Nat) : Nat → List BusAction
  | 0 => []
  | m + 1 => .sendByte a :: .start :: retryTrace a m

/-- Number of bytes handed to the data register in a list of bus commands. -/
def bytesSent : List BusAction → Nat
  | [] => 0
  | .sendByte _ :: as => bytesSent as + 1
  | _ :: as => bytesSent as

/-- Register block after reset: `STAT` reads no-relevant-information, all other
registers are zero. -/
def resetBlock : IP_I2C_001_T :=
  { CON := 0, STAT := 0xF8, DAT := 0, ADR0 := 0, SCLH := 0, SCLL := 0, MMCTRL := 0,
    ADR1 := 0, ADR2 := 0, ADR3 := 0, DATA_BUFFER := 0, MASK := fun _ => 0 }

/-! ## Further declarations of `i2c_001.h` -/

/-- First definition of the macro, `#define I2C_STA_STO_RECV 0x20` right after
the register block; the header defines the macro a second time among the state
handle return values (`I2C_STA_STO_RECV` above). -/
def I2C_STA_STO_RECV_first : Nat := 0x20

/-- The fields of `IP_I2C_001_T` in declaration order; each is one `uint32_t`
word, the array `MASK[4]` four of them. -/
def IP_I2C_001_T_fields : List Reg :=
  [.CONSET, .STAT, .DAT, .ADR0, .SCLH, .SCLL, .CONCLR, .MMCTRL, .ADR1, .ADR2, .ADR3,
    .DATA_BUFFER, .MASK 0, .MASK 1, .MASK 2, .MASK 3]

/-- Byte offset of a register in the block: all fields before it are 32-bit
words, so it is four times the position in declaration order. -/
def Reg.offset (r : Reg) : Nat := 4 * IP_I2C_001_T_fields.indexOf r

/-- Size of the block in bytes. -/
def IP_I2C_001_T_size : Nat := 4 * IP_I2C_001_T_fields.length

/-- The slave address registers `ADR0`..`ADR3`. -/
def Reg.isAddress : Reg → Bool
  | .ADR0 | .ADR1 | .ADR2 | .ADR3 => true
  | _ => false

/-- The slave address mask registers `MASK[0]`..`MASK[3]`. -/
def Reg.isMask : Reg → Bool
  | .MASK _ => true
  | _ => false

/-- Address register of a slave address channel (`SlaveAddrChannel`, 0..3). -/
def ownAddressReg : Fin 4 → Reg
  | 0 => .ADR0
  | 1 => .ADR1
  | 2 => .ADR2
  | 3 => .ADR3

/-- Mask register of a slave address channel (`SlaveAddrChannel`, 0..3). -/
def ownMaskReg (ch : Fin 4) : Reg := .MASK ch

/-- The enumerators of `IP_I2C_ID_T`. -/
inductive IP_I2C_ID_T
  | I2C0 | I2C1 | I2C2
  deriving DecidableEq

/-- The chip selection macros the declaration of `IP_I2C_ID_T` tests with
`defined(...)`. -/
structure ChipDefines where
  CHIP_LPC175X_6X : Bool
  CHIP_LPC177X_8X : Bool
  CHIP_LPC407X_8X : Bool
  CHIP_LPC18XX : Bool
  CHIP_LPC43XX : Bool
  deriving DecidableEq

/-- The enumerators of `IP_I2C_ID_T` the preprocessor leaves, in order: `I2C0`,
then `I2C1` under the first `#if`, then `I2C2` under the nested one. -/
def IP_I2C_ID_T.enumerators (d : ChipDefines) : List IP_I2C_ID_T :=
  .I2C0 ::
    (if d.CHIP_LPC175X_6X || d.CHIP_LPC177X_8X || d.CHIP_LPC407X_8X || d.CHIP_LPC18XX ||
        d.CHIP_LPC43XX then
      .I2C1 ::
        (if d.CHIP_LPC175X_6X || d.CHIP_LPC177X_8X || d.CHIP_LPC407X_8X then [.I2C2] else [])
    else [])

/-- The enumerators with their values: `I2C0 = 0`, each further one is the
previous value plus one. -/
def IP_I2C_ID_T.values (d : ChipDefines) : List (IP_I2C_ID_T × Nat) :=
  (IP_I2C_ID_T.enumerators d).zip (List.range (IP_I2C_ID_T.enumerators d).length)

/-! ## Peripheral base addresses of `chip.h` -/

def LPC_SCT_BASE : Nat := 0x40000000
def LPC_GPDMA_BASE : Nat := 0x40002000
def LPC_SDMMC_BASE : Nat := 0x40004000
def LPC_EMC_BASE : Nat := 0x40005000
def LPC_USB0_BASE : Nat := 0x40006000
def LPC_USB1_BASE : Nat := 0x40007000
def LPC_LCD_BASE : Nat := 0x40008000
def LPC_ETHERNET_BASE : Nat := 0x40010000
def LPC_ATIMER_BASE : Nat := 0x40040000
def LPC_REGFILE_BASE : Nat := 0x40041000
def LPC_PMC_BASE : Nat := 0x40042000
def LPC_CREG_BASE : Nat := 0x40043000
def LPC_EVRT_BASE : Nat := 0x40044000
def LPC_RTC_BASE : Nat := 0x40046000
def LPC_CGU_BASE : Nat := 0x40050000
def LPC_CCU1_BASE : Nat := 0x40051000
def LPC_CCU2_BASE : Nat := 0x40052000
def LPC_RGU_BASE : Nat := 0x40053000
def LPC_WWDT_BASE : Nat := 0x40080000
def LPC_USART0_BASE : Nat := 0x40081000
def LPC_USART2_BASE : Nat := 0x400C1000
def LPC_USART3_BASE : Nat := 0x400C2000
def LPC_UART1_BASE : Nat := 0x40082000
def LPC_SSP0_BASE : Nat := 0x40083000
def LPC_SSP1_BASE : Nat := 0x400C5000
def LPC_TIMER0_BASE : Nat := 0x40084000
def LPC_TIMER1_BASE : Nat := 0x40085000
def LPC_TIMER2_BASE : Nat := 0x400C3000
def LPC_TIMER3_BASE : Nat := 0x400C4000
def LPC_SCU_BASE : Nat := 0x40086000
def LPC_GPIO_PIN_INT_BASE : Nat := 0x40087000
def LPC_GPIO_GROUP_INT0_BASE : Nat := 0x40088000
def LPC_GPIO_GROUP_INT1_BASE : Nat := 0x40089000
def LPC_MCPWM_BASE : Nat := 0x400A0000
def LPC_I2C0_BASE : Nat := 0x400A1000
def LPC_I2C1_BASE : Nat := 0x400E0000
def LPC_I2S0_BASE : Nat := 0x400A2000
def LPC_I2S1_BASE : Nat := 0x400A3000
def LPC_C_CAN1_BASE : Nat := 0x400A4000
def LPC_RITIMER_BASE : Nat := 0x400C0000
def LPC_QEI_BASE : Nat := 0x400C6000
def LPC_GIMA_BASE : Nat := 0x400C7000
def LPC_DAC_BASE : Nat := 0x400E1000
def LPC_C_CAN0_BASE : Nat := 0x400E2000
def LPC_ADC0_BASE : Nat := 0x400E3000
def LPC_ADC1_BASE : Nat := 0x400E4000
def LPC_GPIO_PORT_BASE : Nat := 0x400F4000
def LPC_SPI_BASE : Nat := 0x40100000
def LPC_SGPIO_BASE : Nat := 0x40101000

/-- All `LPC_*_BASE` addresses of `chip.h`, in the order of their definition. -/
def peripheralBases : List Nat :=
  [LPC_SCT_BASE, LPC_GPDMA_BASE, LPC_SDMMC_BASE, LPC_EMC_BASE, LPC_USB0_BASE,
    LPC_USB1_BASE, LPC_LCD_BASE, LPC_ETHERNET_BASE, LPC_ATIMER_BASE,
    LPC_REGFILE_BASE, LPC_PMC_BASE, LPC_CREG_BASE, LPC_EVRT_BASE, LPC_RTC_BASE,
    LPC_CGU_BASE, LPC_CCU1_BASE, LPC_CCU2_BASE, LPC_RGU_BASE, LPC_WWDT_BASE,
    LPC_USART0_BASE, LPC_USART2_BASE, LPC_USART3_BASE, LPC_UART1_BASE,
    LPC_SSP0_BASE, LPC_SSP1_BASE, LPC_TIMER0_BASE, LPC_TIMER1_BASE,
    LPC_TIMER2_BASE, LPC_TIMER3_BASE, LPC_SCU_BASE, LPC_GPIO_PIN_INT_BASE,
    LPC_GPIO_GROUP_INT0_BASE, LPC_GPIO_GROUP_INT1_BASE, LPC_MCPWM_BASE,
    LPC_I2C0_BASE, LPC_I2C1_BASE, LPC_I2S0_BASE, LPC_I2S1_BASE,
    LPC_C_CAN1_BASE, LPC_RITIMER_BASE, LPC_QEI_BASE, LPC_GIMA_BASE,
    LPC_DAC_BASE, LPC_C_CAN0_BASE, LPC_ADC0_BASE, LPC_ADC1_BASE,
    LPC_GPIO_PORT_BASE, LPC_SPI_BASE, LPC_SGPIO_BASE]

/-- The base addresses `chip.h` uses for register blocks of type `IP_I2C_001_T`
(`LPC_I2C0`, `LPC_I2C1`). -/
def i2cBases : List Nat := [LPC_I2C0_BASE, LPC_I2C1_BASE]

/-- The base address of the instance an identifier names: `chip.h` has
`LPC_I2C0` and `LPC_I2C1` and no third I2C block. -/
def IP_I2C_ID_T.base : IP_I2C_ID_T → Option Nat
  | .I2C0 => some LPC_I2C0_BASE
  | .I2C1 => some LPC_I2C1_BASE
  | .I2C2 => none

/-! ## Expansion of the macro `I2C_I2MASK_MASK` -/

/-- An unparenthesised chain `x0 & x1 & ... & xk` of C operands (variables,
literals or parenthesised expressions), each given by its value. -/
structure CAndChain where
  head : Nat
  tail : List Nat
  deriving DecidableEq

/-- Value of an and-chain (`&` associates to the left). -/
def CAndChain.eval (c : CAndChain) : Nat := c.tail.foldl (fun acc x => acc &&& x) c.head

/-- An unparenthesised macro argument `c0 | c1 | ... | cm` whose operands are
and-chains: in C `&` binds tighter than `|`. -/
structure COrChain where
  head : CAndChain
  tail : List CAndChain
  deriving DecidableEq

/-- Value of an or-chain (`|` associates to the left). -/
def COrChain.eval (e : COrChain) : Nat :=
  e.tail.foldl (fun acc c => acc ||| c.eval) e.head.eval

/-- The expression whose text is the text of `e` followed by `& v`: since `&`
binds tighter than `|`, the new operand joins the last and-chain. -/
def COrChain.appendAnd (e : COrChain) (v : Nat) : COrChain :=
  match e.tail.reverse with
  | [] => ⟨⟨e.head.head, e.head.tail ++ [v]⟩, []⟩
  | last :: rest => ⟨e.head, rest.reverse ++ [⟨last.head, last.tail ++ [v]⟩]⟩

/-- An argument that is a single variable or literal of value `n`. -/
def COrChain.single (n : Nat) : COrChain := ⟨⟨n, []⟩, []⟩

/-- The argument `a | b` of two single operands. -/
def COrChain.or2 (a b : Nat) : COrChain := ⟨⟨a, []⟩, [⟨b, []⟩]⟩

/-- Value of `I2C_I2MASK_MASK(arg)` as the preprocessor expands it:
`#define I2C_I2MASK_MASK(n) ((n & 0xFE))` puts the text of the argument in
front of `& 0xFE` with no parentheses of its own. -/
def I2C_I2MASK_MASK_expansion (arg : COrChain) : Nat := (arg.appendAnd 0xFE).eval

/-- The mask field of the value of the argument, `(arg) & 0xFE`: what the
macro is documented to give ("I2C Mask Register mask field"). -/
def I2C_I2MASK_MASK_field (arg : COrChain) : Nat := arg.eval &&& 0xFE

/-! ## Theorems -/

/-! ### C1: status code interpreter -/

set_option maxRecDepth 100000 in
/-- Claim C1. For every 8-bit raw status `s` the masked code
`s & I2C_STAT_CODE_BITMASK` is either a named code (0x00, 0x08..0xC8 in steps
of 8, or 0xF8) and the interpreter returns a category that the header names
with exactly that code, or it is one of 0xD0, 0xD8, 0xE0, 0xE8, 0xF0, which no
constant names, and the interpreter returns no-relevant-information or
bus-error.  No value is left unclassified. -/
theorem interpretStatus_total (s : Nat) (h : s < 256) :
    ((s &&& I2C_STAT_CODE_BITMASK = 0x00 ∨
        (0x08 ≤ s &&& I2C_STAT_CODE_BITMASK ∧ s &&& I2C_STAT_CODE_BITMASK ≤ 0xC8 ∧
          (s &&& I2C_STAT_CODE_BITMASK) % 8 = 0) ∨
        s &&& I2C_STAT_CODE_BITMASK = 0xF8) ∧
      (I2C_InterpretStatus s, s &&& I2C_STAT_CODE_BITMASK) ∈ namedCodes) ∨
    ((s &&& I2C_STAT_CODE_BITMASK) ∈ [0xD0, 0xD8, 0xE0, 0xE8, 0xF0] ∧
      (∀ e ∈ namedCodes, e.2 ≠ s &&& I2C_STAT_CODE_BITMASK) ∧
      (I2C_InterpretStatus s = .no_inf ∨ I2C_InterpretStatus s = .bus_error)) := by
  revert s
  decide

/-- Claim C1 at the raw status 0x5B (code 0x58, data received and NACK returned). -/
theorem interpretStatus_total_witness :
    (0x5B : Nat) < 256 ∧
    ((((0x5B : Nat) &&& I2C_STAT_CODE_BITMASK = 0x00 ∨
        (0x08 ≤ (0x5B : Nat) &&& I2C_STAT_CODE_BITMASK ∧
          (0x5B : Nat) &&& I2C_STAT_CODE_BITMASK ≤ 0xC8 ∧
          ((0x5B : Nat) &&& I2C_STAT_CODE_BITMASK) % 8 = 0) ∨
        (0x5B : Nat) &&& I2C_STAT_CODE_BITMASK = 0xF8) ∧
      (I2C_InterpretStatus 0x5B, (0x5B : Nat) &&& I2C_STAT_CODE_BITMASK) ∈ namedCodes) ∨
    (((0x5B : Nat) &&& I2C_STAT_CODE_BITMASK) ∈ [0xD0, 0xD8, 0xE0, 0xE8, 0xF0] ∧
      (∀ e ∈ namedCodes, e.2 ≠ (0x5B : Nat) &&& I2C_STAT_CODE_BITMASK) ∧
      (I2C_InterpretStatus 0x5B = .no_inf ∨ I2C_InterpretStatus 0x5B = .bus_error))) :=
  ⟨by decide, interpretStatus_total 0x5B (by decide)⟩

/-! ### Buffers and runs -/

theorem take_set_succ (l : List Nat) (i b : Nat) (hi : i < l.length) :
    (l.set i b).take (i + 1) = l.take i ++ [b] := by
  rw [List.set_eq_take_append_cons_drop, if_pos hi]
  have hl : (l.take i).length = i := by rw [List.length_take]; omega
  rw [List.take_append_eq_append_take, hl]
  simp [List.take_of_length_le (Nat.le_succ_of_le (Nat.le_of_eq hl))]

theorem storeFrom_eq (bs : List Nat) : ∀ (l : List Nat) (i : Nat),
    i + bs.length ≤ l.length → storeFrom l i bs = l.take i ++ bs ++ l.drop (i + bs.length) := by
  induction bs with
  | nil => intro l i _; simp [storeFrom]
  | cons b bs ih =>
    intro l i h
    simp only [List.length_cons] at h
    have hi : i < l.length := by omega
    rw [storeFrom, ih (l.set i b) (i + 1) (by rw [List.length_set]; omega),
      take_set_succ l i b hi, List.drop_set_of_lt b l (by omega)]
    simp only [List.length_cons, List.append_assoc, List.singleton_append]
    congr 3
    omega

theorem storeFrom_full (l bs : List Nat) (h : l.length = bs.length) :
    storeFrom l 0 bs = bs := by
  rw [storeFrom_eq bs l 0 (by omega)]
  simp [h]

theorem master_run_terminal (evs : List MasterEvent) (r : I2C_M_SETUP_T)
    (h : I2C_MasterTerminal r.status = true) : I2C_MasterRun evs r = ⟨r, [], []⟩ := by
  induction evs with
  | nil => rfl
  | cons ev evs ih => simp [I2C_MasterRun, I2C_MasterDispatch, h, ih]

theorem master_run_append (e1 e2 : List MasterEvent) (r : I2C_M_SETUP_T) :
    I2C_MasterRun (e1 ++ e2) r =
      ⟨(I2C_MasterRun e2 (I2C_MasterRun e1 r).cfg).cfg,
        (I2C_MasterRun e1 r).bus ++ (I2C_MasterRun e2 (I2C_MasterRun e1 r).cfg).bus,
        (I2C_MasterRun e1 r).mem ++ (I2C_MasterRun e2 (I2C_MasterRun e1 r).cfg).mem⟩ := by
  induction e1 generalizing r with
  | nil => simp [I2C_MasterRun]
  | cons ev e1 ih => simp [I2C_MasterRun, ih, List.append_assoc]

theorem slave_dispatch_active (overflowFlag : Nat) (ev : SlaveEvent) (c : SlaveContext)
    (hact : c.active = true) (herr : I2C_CheckError c.cfg.status = 0) :
    I2C_SlaveDispatch overflowFlag ev c = I2C_SlaveHandleEvent overflowFlag ev c := by
  simp [I2C_SlaveDispatch, hact, herr]

theorem checkError_eq_zero_iff (s : Nat) : I2C_CheckError s = 0 ↔ s.testBit 28 = false := by
  unfold I2C_CheckError
  have h : (0x10000000 : Nat) = 2 ^ 28 := by norm_num
  rw [h, Nat.and_two_pow]
  cases s.testBit 28 <;> simp

theorem checkError_clearWait (s : Nat) (h : I2C_CheckError s = 0) :
    I2C_CheckError (I2C_SlaveClearWait s) = 0 := by
  rw [checkError_eq_zero_iff] at *
  simp [I2C_SlaveClearWait, Nat.testBit_and, h]

/-- Receive phase with `d + 1` bytes still expected: the first `d` bytes that
arrive are stored and acknowledged, the next one is stored, not acknowledged
and followed by stop; later bytes find the request terminal. -/
theorem master_recv_run (d : Nat) : ∀ (bs : List Nat) (r : I2C_M_SETUP_T),
    I2C_MasterTerminal r.status = false → r.rx_length = r.rx_count + d + 1 →
    d + 1 ≤ bs.length →
    I2C_MasterRun (bs.map MasterEvent.dataReceived) r =
      ⟨{ r with rx_data := storeFrom r.rx_data r.rx_count (bs.take (d + 1)),
                rx_count := r.rx_length, status := I2C_RECV_END },
        List.replicate d BusAction.ack ++ [.nack, .stop],
        (List.range' r.rx_count (d + 1)).map BufAccess.rxWrite⟩ := by
  induction d with
  | zero =>
    intro bs r hnt hlen hbs
    match bs, hbs with
    | b :: bs, _ =>
      have h1 : r.rx_count < r.rx_length := by omega
      have h2 : ¬ (r.rx_count + 1 < r.rx_length) := by omega
      have ht : I2C_MasterTerminal I2C_RECV_END = true := by decide
      simp [I2C_MasterRun, I2C_MasterDispatch, hnt, I2C_MasterHandleEvent, h1, h2,
        master_run_terminal, ht, storeFrom, hlen]
  | succ d ih =>
    intro bs r hnt hlen hbs
    match bs, hbs with
    | b :: bs, hbs =>
      have h1 : r.rx_count < r.rx_length := by omega
      have h2 : r.rx_count + 1 < r.rx_length := by omega
      simp only [List.length_cons] at hbs
      have key := ih bs { r with rx_data := r.rx_data.set r.rx_count b,
                                 rx_count := r.rx_count + 1 } hnt (by simp; omega) (by omega)
      simp only [List.map_cons, I2C_MasterRun, I2C_MasterDispatch, hnt, I2C_MasterHandleEvent,
        h1, h2, if_true, Bool.false_eq_true, if_false, key]
      simp [storeFrom, List.replicate_succ, List.range'_succ]

/-- Receive phase cut short: while fewer bytes arrived than are still expected,
each one is stored and acknowledged and the status is left as it was. -/
theorem master_recv_short (bs : List Nat) : ∀ (r : I2C_M_SETUP_T),
    I2C_MasterTerminal r.status = false → r.rx_count + bs.length < r.rx_length →
    I2C_MasterRun (bs.map MasterEvent.dataReceived) r =
      ⟨{ r with rx_data := storeFrom r.rx_data r.rx_count bs,
                rx_count := r.rx_count + bs.length },
        List.replicate bs.length BusAction.ack,
        (List.range' r.rx_count bs.length).map BufAccess.rxWrite⟩ := by
  induction bs with
  | nil => intro r _ _; simp [I2C_MasterRun, storeFrom]
  | cons b bs ih =>
    intro r hnt hlen
    simp only [List.length_cons] at hlen
    have h1 : r.rx_count < r.rx_length := by omega
    have h2 : r.rx_count + 1 < r.rx_length := by omega
    have key := ih { r with rx_data := r.rx_data.set r.rx_count b,
                            rx_count := r.rx_count + 1 } hnt (by simp; omega)
    simp only [List.map_cons, I2C_MasterRun, I2C_MasterDispatch, hnt, I2C_MasterHandleEvent,
      h1, h2, if_true, Bool.false_eq_true, if_false, key]
    simp [storeFrom, List.replicate_succ, List.range'_succ]
    omega

/-- Claim C2. A master receive phase with `rx_length = N >= 1`, started with
the receive counter at zero on a request in progress: once `N` bytes have
arrived the phase is complete (status receive-complete), the engine has
acknowledged exactly the first `N - 1` bytes and not-acknowledged the `N`-th
(then issued stop), `rx_data` holds the `N` bytes in arrival order and
`rx_count = N`.  While fewer than `N` bytes have arrived every one of them has
been acknowledged and the status has not changed. -/
theorem master_receive_acks_all_but_last (r : I2C_M_SETUP_T) (bs : List Nat)
    (hnt : I2C_MasterTerminal r.status = false) (hc : r.rx_count = 0)
    (hN : 1 ≤ r.rx_length) (hbuf : r.rx_data.length = r.rx_length) :
    (r.rx_length ≤ bs.length →
      (I2C_MasterRun (bs.map MasterEvent.dataReceived) r).bus =
          List.replicate (r.rx_length - 1) BusAction.ack ++ [.nack, .stop] ∧
        (I2C_MasterRun (bs.map MasterEvent.dataReceived) r).cfg.rx_data = bs.take r.rx_length ∧
        (I2C_MasterRun (bs.map MasterEvent.dataReceived) r).cfg.rx_count = r.rx_length ∧
        (I2C_MasterRun (bs.map MasterEvent.dataReceived) r).cfg.status = I2C_RECV_END) ∧
    (bs.length < r.rx_length →
      (I2C_MasterRun (bs.map MasterEvent.dataReceived) r).bus =
          List.replicate bs.length BusAction.ack ∧
        (I2C_MasterRun (bs.map MasterEvent.dataReceived) r).cfg.rx_count = bs.length ∧
        (I2C_MasterRun (bs.map MasterEvent.dataReceived) r).cfg.status = r.status) := by
  constructor
  · intro hlen
    have hd : r.rx_length = r.rx_count + (r.rx_length - 1) + 1 := by omega
    rw [master_recv_run (r.rx_length - 1) bs r hnt hd (by omega)]
    have e : r.rx_length - 1 + 1 = r.rx_length := by omega
    refine ⟨rfl, ?_, rfl, rfl⟩
    simp only [e, hc]
    exact storeFrom_full _ _ (by rw [hbuf, List.length_take]; omega)
  · intro hlen
    rw [master_recv_short bs r hnt (by omega)]
    simp [hc]

/-- Claim C2 for a three-byte read from address 0x50 with five bytes arriving. -/
theorem master_receive_acks_all_but_last_witness :
    (I2C_MasterRun ([0x11, 0x22, 0x33, 0x44, 0x55].map MasterEvent.dataReceived)
        ⟨0x50, [], 0, 0, [0, 0, 0], 3, 0, 2, 0, I2C_OK⟩).bus = [.ack, .ack, .nack, .stop] ∧
    (I2C_MasterRun ([0x11, 0x22, 0x33, 0x44, 0x55].map MasterEvent.dataReceived)
        ⟨0x50, [], 0, 0, [0, 0, 0], 3, 0, 2, 0, I2C_OK⟩).cfg.rx_data = [0x11, 0x22, 0x33] ∧
    (I2C_MasterRun ([0x11, 0x22, 0x33, 0x44, 0x55].map MasterEvent.dataReceived)
        ⟨0x50, [], 0, 0, [0, 0, 0], 3, 0, 2, 0, I2C_OK⟩).cfg.rx_count = 3 ∧
    (I2C_MasterRun ([0x11, 0x22, 0x33, 0x44, 0x55].map MasterEvent.dataReceived)
        ⟨0x50, [], 0, 0, [0, 0, 0], 3, 0, 2, 0, I2C_OK⟩).cfg.status = I2C_RECV_END :=
  (master_receive_acks_all_but_last ⟨0x50, [], 0, 0, [0, 0, 0], 3, 0, 2, 0, I2C_OK⟩
    [0x11, 0x22, 0x33, 0x44, 0x55] (by decide) rfl (by decide) rfl).1 (by decide)

/-! ### C3: address retransmissions -/

theorem master_start_event (r : I2C_M_SETUP_T) (hnt : I2C_MasterTerminal r.status = false) :
    I2C_MasterDispatch .startTransmitted r = ⟨r, [.sendByte (I2C_MasterAddressByte r)], []⟩ := by
  unfold I2C_MasterDispatch I2C_MasterHandleEvent I2C_MasterAddressByte
  by_cases h : r.tx_count < r.tx_length <;> simp [hnt, h]

/-- Address attempts within the retry budget: each is followed by a counted
retransmission. -/
theorem master_nack_rounds (m : Nat) : ∀ (r : I2C_M_SETUP_T),
    I2C_MasterTerminal r.status = false →
    r.retransmissions_count + m ≤ r.retransmissions_max →
    I2C_MasterRun (addressNackRounds m) r =
      ⟨{ r with retransmissions_count := r.retransmissions_count + m },
        retryTrace (I2C_MasterAddressByte r) m, []⟩ := by
  induction m with
  | zero => intro r _ _; simp [I2C_MasterRun, addressNackRounds, retryTrace]
  | succ m ih =>
    intro r hnt hle
    have h1 : r.retransmissions_count < r.retransmissions_max := by omega
    have key := ih { r with retransmissions_count := r.retransmissions_count + 1 } hnt
      (by simp; omega)
    simp only [addressNackRounds, I2C_MasterRun, master_start_event r hnt]
    simp only [I2C_MasterDispatch, hnt, I2C_MasterHandleEvent, h1, if_true,
      Bool.false_eq_true, if_false, key]
    simp [retryTrace, I2C_MasterAddressByte]
    omega

/-- Address attempts that are all not acknowledged, at least one more than the
`d` retries left: `d` retransmissions, then the last address byte, stop and
nack-received. -/
theorem master_nack_exhaust (d : Nat) : ∀ (m : Nat) (r : I2C_M_SETUP_T),
    I2C_MasterTerminal r.status = false →
    r.retransmissions_max = r.retransmissions_count + d → d + 1 ≤ m →
    I2C_MasterRun (addressNackRounds m) r =
      ⟨{ r with retransmissions_count := r.retransmissions_max, status := I2C_NAK_RECV },
        retryTrace (I2C_MasterAddressByte r) d ++
          [.sendByte (I2C_MasterAddressByte r), .stop], []⟩ := by
  induction d with
  | zero =>
    intro m r hnt hmax hm
    match m, hm with
    | m + 1, _ =>
      have h1 : ¬ (r.retransmissions_count < r.retransmissions_max) := by omega
      have ht : I2C_MasterTerminal I2C_NAK_RECV = true := by decide
      simp only [addressNackRounds, I2C_MasterRun, master_start_event r hnt]
      simp [I2C_MasterDispatch, hnt, I2C_MasterHandleEvent, h1, master_run_terminal, ht,
        retryTrace]
      omega
  | succ d ih =>
    intro m r hnt hmax hm
    match m, hm with
    | m + 1, hm =>
      have h1 : r.retransmissions_count < r.retransmissions_max := by omega
      have key := ih m { r with retransmissions_count := r.retransmissions_count + 1 } hnt
        (by simp; omega) (by omega)
      simp only [addressNackRounds, I2C_MasterRun, master_start_event r hnt]
      simp only [I2C_MasterDispatch, hnt, I2C_MasterHandleEvent, h1, if_true,
        Bool.false_eq_true, if_false, key]
      simp [retryTrace, I2C_MasterAddressByte]

theorem bytesSent_append (xs ys : List BusAction) :
    bytesSent (xs ++ ys) = bytesSent xs + bytesSent ys := by
  induction xs with
  | nil => simp [bytesSent]
  | cons x xs ih =>
    cases x <;> simp [bytesSent, ih]
    omega

theorem bytesSent_retryTrace (a m : Nat) : bytesSent (retryTrace a m) = m := by
  induction m with
  | zero => rfl
  | succ m ih => simp [retryTrace, bytesSent, ih]

theorem master_ack_bus (r : I2C_M_SETUP_T) (c : Nat) (ackEv : MasterEvent)
    (hack : ackEv = MasterEvent.addressAckedW ∨ ackEv = MasterEvent.addressAckedR) :
    (I2C_MasterHandleEvent ackEv { r with retransmissions_count := c }).bus =
      (I2C_MasterHandleEvent ackEv r).bus := by
  rcases hack with rfl | rfl <;>
    simp only [I2C_MasterHandleEvent, I2C_MasterSendNext, I2C_MasterTxExhausted]
  · split_ifs <;> rfl

theorem master_ack_status (r : I2C_M_SETUP_T) (ackEv : MasterEvent)
    (hnt : I2C_MasterTerminal r.status = false)
    (hack : ackEv = MasterEvent.addressAckedW ∨ ackEv = MasterEvent.addressAckedR) :
    I2C_CheckError (I2C_MasterDispatch ackEv r).cfg.status = 0 ∧
      (I2C_MasterDispatch ackEv r).cfg.status ≠ I2C_NAK_RECV := by
  have hce : I2C_CheckError r.status = 0 := by
    simp only [I2C_MasterTerminal, Bool.or_eq_false_iff] at hnt
    simpa using hnt.2
  have hne : r.status ≠ I2C_NAK_RECV := by
    intro hh
    rw [hh] at hce
    revert hce
    decide
  rcases hack with rfl | rfl <;>
    simp only [I2C_MasterDispatch, hnt, I2C_MasterHandleEvent, I2C_MasterSendNext,
      I2C_MasterTxExhausted, Bool.false_eq_true, if_false] <;>
    (try split_ifs) <;>
    first
    | exact ⟨hce, hne⟩
    | exact ⟨show I2C_CheckError I2C_SEND_END = 0 by decide,
        show I2C_SEND_END ≠ I2C_NAK_RECV by decide⟩

/-- Claim C3. A master request in progress with `retransmissions_max = k` and
the retry counter at zero.  When every address byte is not acknowledged
(`m` rounds of start transmitted, address nacked) the engine hands at most
`k + 1` bytes to the data register, all of them the address byte; from
`m = k + 1` on it has sent the address exactly `k + 1` times, each of the first
`k` followed by a new start, the last by stop, and the status is
`I2C_NAK_RECV`; up to `m = k` the status is not touched.  When the address is
acknowledged on attempt `i + 1 <= k + 1` the engine goes on with what it does
on an address ack (the next data byte, a restart or the end of the transfer),
and the status is neither `I2C_NAK_RECV` nor any error. -/
theorem master_address_nack_retries (r : I2C_M_SETUP_T) (m i : Nat)
    (hnt : I2C_MasterTerminal r.status = false) (h0 : r.retransmissions_count = 0) :
    bytesSent (I2C_MasterRun (addressNackRounds m) r).bus ≤ r.retransmissions_max + 1 ∧
    (r.retransmissions_max + 1 ≤ m →
      (I2C_MasterRun (addressNackRounds m) r).bus =
          retryTrace (I2C_MasterAddressByte r) r.retransmissions_max ++
            [.sendByte (I2C_MasterAddressByte r), .stop] ∧
        bytesSent (I2C_MasterRun (addressNackRounds m) r).bus = r.retransmissions_max + 1 ∧
        (I2C_MasterRun (addressNackRounds m) r).cfg.status = I2C_NAK_RECV) ∧
    (m ≤ r.retransmissions_max →
      (I2C_MasterRun (addressNackRounds m) r).bus = retryTrace (I2C_MasterAddressByte r) m ∧
        (I2C_MasterRun (addressNackRounds m) r).cfg.status = r.status) ∧
    (i ≤ r.retransmissions_max →
      ∀ ackEv, ackEv = MasterEvent.addressAckedW ∨ ackEv = MasterEvent.addressAckedR →
        (I2C_MasterRun (addressNackRounds i ++ [.startTransmitted, ackEv]) r).bus =
            retryTrace (I2C_MasterAddressByte r) i ++
              .sendByte (I2C_MasterAddressByte r) :: (I2C_MasterHandleEvent ackEv r).bus ∧
          (I2C_MasterRun (addressNackRounds i ++ [.startTransmitted, ackEv]) r).cfg.status ≠
            I2C_NAK_RECV ∧
          I2C_CheckError
            (I2C_MasterRun (addressNackRounds i ++ [.startTransmitted, ackEv]) r).cfg.status
              = 0) := by
  have hexh : r.retransmissions_max + 1 ≤ m →
      I2C_MasterRun (addressNackRounds m) r =
        ⟨{ r with retransmissions_count := r.retransmissions_max, status := I2C_NAK_RECV },
          retryTrace (I2C_MasterAddressByte r) r.retransmissions_max ++
            [.sendByte (I2C_MasterAddressByte r), .stop], []⟩ :=
    fun h => master_nack_exhaust r.retransmissions_max m r hnt (by omega) h
  have hpart : ∀ j, j ≤ r.retransmissions_max →
      I2C_MasterRun (addressNackRounds j) r =
        ⟨{ r with retransmissions_count := r.retransmissions_count + j },
          retryTrace (I2C_MasterAddressByte r) j, []⟩ :=
    fun j h => master_nack_rounds j r hnt (by omega)
  refine ⟨?_, ?_, ?_, ?_⟩
  · by_cases h : r.retransmissions_max + 1 ≤ m
    · rw [hexh h]
      simp [bytesSent_append, bytesSent_retryTrace, bytesSent]
    · rw [hpart m (by omega)]
      simp only [bytesSent_retryTrace]
      omega
  · intro h
    rw [hexh h]
    simp [bytesSent_append, bytesSent_retryTrace, bytesSent]
  · intro h
    rw [hpart m h]
    simp
  · intro h ackEv hack
    rw [master_run_append, hpart i h]
    simp only [I2C_MasterRun]
    rw [master_start_event _ (show I2C_MasterTerminal
      ({ r with retransmissions_count := r.retransmissions_count + i }).status = false from hnt)]
    have hb := master_ack_bus r (r.retransmissions_count + i) ackEv hack
    have hs := master_ack_status { r with retransmissions_count := r.retransmissions_count + i }
      ackEv hnt hack
    simp only [I2C_MasterDispatch, hnt, Bool.false_eq_true, if_false] at hs ⊢
    refine ⟨?_, hs.2, hs.1⟩
    rw [hb]
    simp [I2C_MasterAddressByte]

/-- Claim C3 for a write to address 0x50 with two retransmissions allowed and
five attempts that are all not acknowledged. -/
theorem master_address_nack_retries_witness :
    (I2C_MasterRun (addressNackRounds 5)
        ⟨0x50, [1, 2, 3], 3, 0, [], 0, 0, 2, 0, I2C_OK⟩).bus =
      [.sendByte 0xA0, .start, .sendByte 0xA0, .start, .sendByte 0xA0, .stop] ∧
    bytesSent (I2C_MasterRun (addressNackRounds 5)
        ⟨0x50, [1, 2, 3], 3, 0, [], 0, 0, 2, 0, I2C_OK⟩).bus = 2 + 1 ∧
    (I2C_MasterRun (addressNackRounds 5)
        ⟨0x50, [1, 2, 3], 3, 0, [], 0, 0, 2, 0, I2C_OK⟩).cfg.status = I2C_NAK_RECV :=
  (master_address_nack_retries ⟨0x50, [1, 2, 3], 3, 0, [], 0, 0, 2, 0, I2C_OK⟩ 5 0
    (by decide) rfl).2.1 (by decide)

/-! ### C4: zero-length request -/

/-- Claim C4. A master request whose transmit length and receive length are
both zero fails at once with `ERROR`, in polling and in interrupt mode and
whatever events are pending; no bus command is issued (in particular no start)
and the request is returned as it was. -/
theorem master_zero_length_rejected (TransferCfg : I2C_M_SETUP_T) (Opt : IP_I2C_TRANSFER_OPT_T)
    (events : List MasterEvent)
    (h : TransferCfg.tx_length = 0 ∧ TransferCfg.rx_length = 0) :
    (IP_I2C_MasterTransferData TransferCfg Opt events).ret = some Status.ERROR ∧
    (IP_I2C_MasterTransferData TransferCfg Opt events).bus = [] ∧
    BusAction.start ∉ (IP_I2C_MasterTransferData TransferCfg Opt events).bus ∧
    (IP_I2C_MasterTransferData TransferCfg Opt events).cfg = TransferCfg := by
  simp [IP_I2C_MasterTransferData, h]

/-- Claim C4 for an empty request to address 0x50 in interrupt mode. -/
theorem master_zero_length_rejected_witness :
    (IP_I2C_MasterTransferData ⟨0x50, [], 0, 0, [], 0, 0, 2, 0, 0⟩ .I2C_TRANSFER_INTERRUPT
      [.startTransmitted]).ret = some Status.ERROR ∧
    (IP_I2C_MasterTransferData ⟨0x50, [], 0, 0, [], 0, 0, 2, 0, 0⟩ .I2C_TRANSFER_INTERRUPT
      [.startTransmitted]).bus = [] :=
  ⟨(master_zero_length_rejected ⟨0x50, [], 0, 0, [], 0, 0, 2, 0, 0⟩ .I2C_TRANSFER_INTERRUPT
      [.startTransmitted] ⟨rfl, rfl⟩).1,
    (master_zero_length_rejected ⟨0x50, [], 0, 0, [], 0, 0, 2, 0, 0⟩ .I2C_TRANSFER_INTERRUPT
      [.startTransmitted] ⟨rfl, rfl⟩).2.1⟩

/-! ### C5: counter invariant -/

/-- Bytes clocked out of a slave with `d` bytes left in the transmit buffer:
the first `d` requests are answered from the buffer in order, every later one
with the idle byte, and the transmit counter stops at the declared length. -/
theorem slave_send_run (overflowFlag : Nat) (evs : List SlaveEvent) :
    ∀ (d : Nat) (c : SlaveContext),
    c.active = true → I2C_CheckError c.cfg.status = 0 →
    (∀ ev ∈ evs, ev = SlaveEvent.addressedRead ∨ ev = SlaveEvent.dataAcked) →
    c.cfg.tx_length = c.cfg.tx_count + d → d ≤ evs.length →
    (I2C_SlaveRun overflowFlag evs c).bus =
        (List.range' c.cfg.tx_count d).map (fun i => BusAction.sendByte (c.cfg.tx_data.getD i 0))
          ++ List.replicate (evs.length - d) (BusAction.sendByte I2C_I2DAT_IDLE_CHAR) ∧
      (I2C_SlaveRun overflowFlag evs c).mem =
        (List.range' c.cfg.tx_count d).map BufAccess.txRead ∧
      (I2C_SlaveRun overflowFlag evs c).ctx.cfg.tx_count = c.cfg.tx_length := by
  induction evs with
  | nil =>
    intro d c _ _ _ hlen hd
    have : d = 0 := by simpa using hd
    subst this
    simp [I2C_SlaveRun, hlen]
  | cons ev evs ih =>
    intro d c hact herr hev hlen hd
    have hev2 : ∀ e ∈ evs, e = SlaveEvent.addressedRead ∨ e = SlaveEvent.dataAcked :=
      fun e he => hev e (List.mem_cons_of_mem _ he)
    have hstep : ∃ c1 : SlaveContext, c1.active = true ∧ I2C_CheckError c1.cfg.status = 0 ∧
        c1.cfg.tx_data = c.cfg.tx_data ∧ c1.cfg.tx_length = c.cfg.tx_length ∧
        c1.cfg.tx_count = c.cfg.tx_count ∧
        I2C_SlaveHandleEvent overflowFlag ev c = I2C_SlaveSendNext c1 := by
      rcases hev ev (List.mem_cons_self _ _) with rfl | rfl
      · by_cases hs : I2C_SlaveWaiting c.cfg.status = true
        · exact ⟨{ c with cfg := { c.cfg with status := I2C_SlaveClearWait c.cfg.status } },
            hact, checkError_clearWait _ herr, rfl, rfl, rfl,
            by simp [I2C_SlaveHandleEvent, hs]⟩
        · exact ⟨c, hact, herr, rfl, rfl, rfl, by simp [I2C_SlaveHandleEvent, hs]⟩
      · exact ⟨c, hact, herr, rfl, rfl, rfl, rfl⟩
    obtain ⟨c1, hact1, herr1, hd1, hl1, hc1, hh⟩ := hstep
    simp only [I2C_SlaveRun, slave_dispatch_active _ _ c hact herr, hh, List.length_cons]
    cases d with
    | zero =>
      have h1 : ¬ (c1.cfg.tx_count < c1.cfg.tx_length) := by omega
      obtain ⟨k1, k2, k3⟩ := ih 0 c1 hact1 herr1 hev2 (by omega) (by omega)
      simp only [I2C_SlaveSendNext, h1, if_false, k1, k2, k3]
      simp [List.replicate_succ, hl1]
    | succ d =>
      have h1 : c1.cfg.tx_count < c1.cfg.tx_length := by omega
      simp only [List.length_cons] at hd
      obtain ⟨k1, k2, k3⟩ := ih d { c1 with cfg := { c1.cfg with tx_count := c1.cfg.tx_count + 1 } }
        hact1 herr1 hev2 (by simp only; omega) (by omega)
      simp only [I2C_SlaveSendNext, h1, if_true, k1, k2, k3]
      simp [List.range'_succ, hl1, hd1, hc1]

theorem map_getD_range (l : List Nat) :
    (List.range' 0 l.length).map (fun i => BusAction.sendByte (l.getD i 0)) =
      l.map BusAction.sendByte := by
  apply List.ext_getElem
  · simp
  · intro n h1 h2
    simp at h1 h2
    simp [List.getD_eq_getElem?_getD, List.getElem?_eq_getElem h2]

/-- Claim C7. An active slave context with transmit length `L`, transmit
counter at zero and no error, read by a master that clocks out
`n = L + k + 1 > L` bytes (one on the address match, one after each of the
`L + k` acknowledged bytes): the engine hands `tx_data[0..L-1]` in order to
the data register, then the idle byte `I2C_I2DAT_IDLE_CHAR` for each of the
remaining `n - L = k + 1` bytes; it reads the transmit buffer only below `L`
and leaves `tx_count = L`.  The idle byte is 0xFF and lies within
`I2C_I2DAT_BITMASK`. -/
theorem slave_transmit_idle_fill (overflowFlag : Nat) (c : SlaveContext) (k : Nat)
    (hact : c.active = true) (herr : I2C_CheckError c.cfg.status = 0)
    (hc : c.cfg.tx_count = 0) (hbuf : c.cfg.tx_data.length = c.cfg.tx_length) :
    (I2C_SlaveRun overflowFlag
        (.addressedRead :: List.replicate (c.cfg.tx_length + k) .dataAcked) c).bus =
        c.cfg.tx_data.map BusAction.sendByte ++
          List.replicate (k + 1) (BusAction.sendByte I2C_I2DAT_IDLE_CHAR) ∧
    (I2C_SlaveRun overflowFlag (.addressedRead ::
        List.replicate (c.cfg.tx_length + k) .dataAcked) c).ctx.cfg.tx_count = c.cfg.tx_length ∧
    (I2C_SlaveRun overflowFlag
        (.addressedRead :: List.replicate (c.cfg.tx_length + k) .dataAcked) c).mem =
        (List.range c.cfg.tx_length).map BufAccess.txRead ∧
    I2C_I2DAT_IDLE_CHAR = 0xFF ∧
    I2C_I2DAT_IDLE_CHAR &&& I2C_I2DAT_BITMASK = I2C_I2DAT_IDLE_CHAR := by
  have hev : ∀ ev ∈ SlaveEvent.addressedRead ::
      List.replicate (c.cfg.tx_length + k) SlaveEvent.dataAcked,
      ev = SlaveEvent.addressedRead ∨ ev = SlaveEvent.dataAcked := by
    intro ev hev
    rcases List.mem_cons.mp hev with h | h
    · exact Or.inl h
    · exact Or.inr (List.eq_of_mem_replicate h)
  obtain ⟨k1, k2, k3⟩ := slave_send_run overflowFlag _ c.cfg.tx_length c hact herr hev (by omega)
    (by simp; omega)
  refine ⟨?_, k3, ?_, rfl, by decide⟩
  · rw [k1, hc, ← hbuf, map_getD_range]
    congr 1
    simp
    omega
  · rw [k2, hc, List.range_eq_range']

/-- Claim C7 for a two-byte transmit buffer and a master reading four bytes. -/
theorem slave_transmit_idle_fill_witness :
    (I2C_SlaveRun 0x40 (.addressedRead :: List.replicate (2 + 1) .dataAcked)
        ⟨⟨[0xAB, 0xCD], 2, 0, [], 0, 0, I2C_OK⟩, true⟩).bus =
      [.sendByte 0xAB, .sendByte 0xCD, .sendByte 0xFF, .sendByte 0xFF] :=
  (slave_transmit_idle_fill 0x40 ⟨⟨[0xAB, 0xCD], 2, 0, [], 0, 0, I2C_OK⟩, true⟩ 1
    rfl (by decide) rfl rfl).1

/-! ### C8: error check -/

theorem checkError_ne_zero_iff (s : Nat) : I2C_CheckError s ≠ 0 ↔ s.testBit 28 = true := by
  unfold I2C_CheckError
  have h : (0x10000000 : Nat) = 2 ^ 28 := by norm_num
  rw [h, Nat.and_two_pow]
  cases s.testBit 28 <;> simp

/-- Claim C8. `I2C_CheckError` is non-zero for `I2C_ERR` and `I2C_NAK_RECV`
and zero for `I2C_OK`, `I2C_BYTE_SENT`, `I2C_BYTE_RECV`, `I2C_LAST_BYTE_RECV`,
`I2C_SEND_END`, `I2C_RECV_END` and `I2C_STA_STO_RECV`; for every status `s`
(every natural number, so every 32-bit value) `I2C_CheckError s` is non-zero
exactly when bit 28 of `s` is set. -/
theorem checkError_separates :
    I2C_CheckError I2C_ERR ≠ 0 ∧ I2C_CheckError I2C_NAK_RECV ≠ 0 ∧
    I2C_CheckError I2C_OK = 0 ∧ I2C_CheckError I2C_BYTE_SENT = 0 ∧
    I2C_CheckError I2C_BYTE_RECV = 0 ∧ I2C_CheckError I2C_LAST_BYTE_RECV = 0 ∧
    I2C_CheckError I2C_SEND_END = 0 ∧ I2C_CheckError I2C_RECV_END = 0 ∧
    I2C_CheckError I2C_STA_STO_RECV = 0 ∧
    ∀ s : Nat, I2C_CheckError s ≠ 0 ↔ s.testBit 28 = true := by
  refine ⟨by decide, by decide, by decide, by decide, by decide, by decide, by decide,
    by decide, by decide, checkError_ne_zero_iff⟩

/-! ### C9: CONSET and CONCLR masks -/

theorem testBit_of_lt_two_pow32 {x i : Nat} (hx : x < 2 ^ 32) (hi : 32 ≤ i) :
    x.testBit i = false :=
  Nat.testBit_eq_false_of_lt (lt_of_lt_of_le hx (Nat.pow_le_pow_right (by decide) hi))

theorem set_then_clear_bits (ctrl : Nat) (f : CtrlFlag) (h : ctrl < 2 ^ 32) (i : Nat) :
    (conclrWrite (consetWrite ctrl f.setMask) f.clrMask).testBit i =
      (decide (i ≠ f.bit) && ctrl.testBit i) := by
  have hm : f.setMask = 2 ^ f.bit ∧ f.clrMask = 2 ^ f.bit ∧ f.bit < 32 := by
    cases f <;> decide
  obtain ⟨h1, h2, h3⟩ := hm
  unfold conclrWrite consetWrite
  rw [h1, h2, Nat.mod_eq_of_lt (a := 2 ^ f.bit) (Nat.pow_lt_pow_right (by decide) h3)]
  simp only [Nat.testBit_and, Nat.testBit_xor, Nat.testBit_mod_two_pow, Nat.testBit_or,
    Nat.testBit_two_pow_sub_one, Nat.testBit_two_pow]
  by_cases hi : i < 32
  · by_cases hb : f.bit = i
    · subst hb; simp [hi]
    · have : i ≠ f.bit := fun e => hb e.symm
      simp [hi, hb, this]
  · have hz := testBit_of_lt_two_pow32 h (not_lt.mp hi)
    simp [hi, hz]

/-- Claim C9. For each control flag `f` among AA, SI, STO, STA, I2EN the
CONSET mask equals the CONCLR mask and is the single bit `2 ^ f.bit`; the masks
of two different flags are disjoint; and for every 32-bit control value,
writing the mask of `f` to CONSET (`ctrl | v`) and then to CONCLR
(`ctrl & ~v`) leaves bit `f` clear and every other bit as it was. -/
theorem conset_conclr_masks (ctrl : Nat) (f g : CtrlFlag) (h : ctrl < 2 ^ 32) :
    f.setMask = f.clrMask ∧ f.setMask = 2 ^ f.bit ∧
    (f ≠ g → f.setMask &&& g.setMask = 0) ∧
    (conclrWrite (consetWrite ctrl f.setMask) f.clrMask).testBit f.bit = false ∧
    ∀ i, i ≠ f.bit →
      (conclrWrite (consetWrite ctrl f.setMask) f.clrMask).testBit i = ctrl.testBit i := by
  refine ⟨by cases f <;> decide, by cases f <;> decide, ?_, ?_, ?_⟩
  · cases f <;> cases g <;> decide
  · rw [set_then_clear_bits ctrl f h]; simp
  · intro i hi
    rw [set_then_clear_bits ctrl f h]; simp [hi]

/-- Claim C9 for the control value 0x44 and the START flag. -/
theorem conset_conclr_masks_witness :
    (0x44 : Nat) < 2 ^ 32 ∧
    (conclrWrite (consetWrite 0x44 CtrlFlag.STA.setMask) CtrlFlag.STA.clrMask).testBit
      CtrlFlag.STA.bit = false :=
  ⟨by decide, (conset_conclr_masks 0x44 .STA .AA (by decide)).2.2.2.1⟩

/-! ### C10: enable functions -/

theorem consetWrite_eq {ctrl v : Nat} (h : ctrl < 2 ^ 32) (hv : v < 2 ^ 32) :
    consetWrite ctrl v = ctrl ||| v := by
  unfold consetWrite
  exact Nat.mod_eq_of_lt (Nat.or_lt_two_pow h hv)

/-- Claim C10. Under write-one-to-set semantics of CONSET, for every 32-bit
prior control value: `IP_I2C_Master_Enable` and `IP_I2C_Slave_Enable` store to
no register other than CONSET; the master enable leaves the block as it was
except that the control register is or-ed with 0x40, so the interface-enable
bit is set and no other control bit changes; the slave enable leaves the block
as it was except that the control register is or-ed with 0x44, so the
interface-enable and assert-acknowledge bits are set and no other control bit
changes. -/
theorem enable_sets_control_bits (p : IP_I2C_001_T) (h : p.CON < 2 ^ 32) :
    (∀ w ∈ IP_I2C_Master_Enable, w.reg = Reg.CONSET) ∧
    (∀ w ∈ IP_I2C_Slave_Enable, w.reg = Reg.CONSET) ∧
    p.run IP_I2C_Master_Enable = { p with CON := p.CON ||| 0x40 } ∧
    p.run IP_I2C_Slave_Enable = { p with CON := p.CON ||| 0x44 } ∧
    (p.run IP_I2C_Master_Enable).CON.testBit 6 = true ∧
    (∀ i, i ≠ 6 → (p.run IP_I2C_Master_Enable).CON.testBit i = p.CON.testBit i) ∧
    (p.run IP_I2C_Slave_Enable).CON.testBit 6 = true ∧
    (p.run IP_I2C_Slave_Enable).CON.testBit 2 = true ∧
    (∀ i, i ≠ 6 → i ≠ 2 → (p.run IP_I2C_Slave_Enable).CON.testBit i = p.CON.testBit i) := by
  have hm : p.run IP_I2C_Master_Enable = { p with CON := p.CON ||| 0x40 } := by
    simp only [IP_I2C_001_T.run, IP_I2C_Master_Enable, List.foldl, IP_I2C_001_T.store,
      I2C_I2CONSET_I2EN]
    rw [consetWrite_eq h (by decide)]
  have hs : p.run IP_I2C_Slave_Enable = { p with CON := p.CON ||| 0x44 } := by
    simp only [IP_I2C_001_T.run, IP_I2C_Slave_Enable, List.foldl, IP_I2C_001_T.store,
      I2C_I2CONSET_I2EN, I2C_I2CONSET_AA]
    rw [consetWrite_eq h (by decide)]
    rfl
  have e6 : (0x40 : Nat) = 2 ^ 6 := by norm_num
  have e44 : (0x44 : Nat) = 2 ^ 6 ||| 2 ^ 2 := by decide
  refine ⟨by simp [IP_I2C_Master_Enable], by simp [IP_I2C_Slave_Enable], hm, hs, ?_, ?_, ?_, ?_, ?_⟩
  · rw [hm]; simp only [Nat.testBit_or, e6, Nat.testBit_two_pow]; simp
  · intro i hi
    rw [hm]; simp only [Nat.testBit_or, e6, Nat.testBit_two_pow]
    have : ¬ (6 = i) := fun e => hi e.symm
    simp [this]
  · rw [hs]; simp only [Nat.testBit_or, e44, Nat.testBit_two_pow]; simp
  · rw [hs]; simp only [Nat.testBit_or, e44, Nat.testBit_two_pow]; simp
  · intro i hi hi2
    rw [hs]; simp only [Nat.testBit_or, e44, Nat.testBit_two_pow]
    have : ¬ (6 = i) := fun e => hi e.symm
    have : ¬ (2 = i) := fun e => hi2 e.symm
    simp [*]

/-- Claim C10 for the register block after reset. -/
theorem enable_sets_control_bits_witness :
    resetBlock.CON < 2 ^ 32 ∧
    (resetBlock.run IP_I2C_Master_Enable).CON.testBit 6 = true ∧
    (resetBlock.run IP_I2C_Slave_Enable).CON.testBit 2 = true :=
  ⟨by decide, (enable_sets_control_bits resetBlock (by decide)).2.2.2.2.1,
    (enable_sets_control_bits resetBlock (by decide)).2.2.2.2.2.2.2.1⟩

/-! ### C11: disable function -/

theorem conclrWrite_testBit (ctrl k : Nat) (hk : k < 32) (h : ctrl < 2 ^ 32) (i : Nat) :
    (conclrWrite ctrl (2 ^ k)).testBit i = (decide (i ≠ k) && ctrl.testBit i) := by
  unfold conclrWrite
  rw [Nat.mod_eq_of_lt (a := 2 ^ k) (Nat.pow_lt_pow_right (by decide) hk)]
  simp only [Nat.testBit_and, Nat.testBit_xor, Nat.testBit_two_pow_sub_one, Nat.testBit_two_pow]
  by_cases hi : i < 32
  · by_cases hb : k = i
    · subst hb; simp [hi]
    · have : i ≠ k := fun e => hb e.symm
      simp [hi, hb, this]
  · have hz := testBit_of_lt_two_pow32 h (not_lt.mp hi)
    simp [hz]

theorem run_append (p : IP_I2C_001_T) (ws vs : List RegWrite) :
    p.run (ws ++ vs) = (p.run ws).run vs := by
  simp [IP_I2C_001_T.run, List.foldl_append]

theorem run_disable (p : IP_I2C_001_T) :
    p.run IP_I2C_Disable = { p with CON := conclrWrite p.CON (2 ^ 6) } := by
  simp only [IP_I2C_001_T.run, IP_I2C_Disable, List.foldl, IP_I2C_001_T.store,
    I2C_I2CONCLR_I2ENC]
  rfl

/-- Claim C11. Under write-one-to-clear semantics of CONCLR, for every 32-bit
prior control value: `IP_I2C_Disable` stores to no register other than CONCLR
and leaves the block as it was except for the control register, in which the
interface-enable bit is clear and every other bit, in particular AA, SI, STO
and STA, is as before.  Hence `IP_I2C_Master_Enable` followed by
`IP_I2C_Disable` gives back the block when the enable bit was clear, whereas
after `IP_I2C_Slave_Enable` followed by `IP_I2C_Disable` the AA bit is set, so
a block whose AA bit was clear is not given back. -/
theorem disable_clears_enable_only (p : IP_I2C_001_T) (h : p.CON < 2 ^ 32) :
    (∀ w ∈ IP_I2C_Disable, w.reg = Reg.CONCLR) ∧
    p.run IP_I2C_Disable = { p with CON := conclrWrite p.CON I2C_I2CONCLR_I2ENC } ∧
    (p.run IP_I2C_Disable).CON.testBit CtrlFlag.I2EN.bit = false ∧
    (∀ i, i ≠ CtrlFlag.I2EN.bit → (p.run IP_I2C_Disable).CON.testBit i = p.CON.testBit i) ∧
    (∀ f : CtrlFlag, f ≠ .I2EN →
      (p.run IP_I2C_Disable).CON.testBit f.bit = p.CON.testBit f.bit) ∧
    (p.CON.testBit CtrlFlag.I2EN.bit = false →
      p.run (IP_I2C_Master_Enable ++ IP_I2C_Disable) = p) ∧
    (p.run (IP_I2C_Slave_Enable ++ IP_I2C_Disable)).CON.testBit CtrlFlag.AA.bit = true ∧
    (p.CON.testBit CtrlFlag.AA.bit = false →
      p.run (IP_I2C_Slave_Enable ++ IP_I2C_Disable) ≠ p) := by
  have hbits : ∀ i, (p.run IP_I2C_Disable).CON.testBit i = (decide (i ≠ 6) && p.CON.testBit i) := by
    intro i
    rw [run_disable]
    exact conclrWrite_testBit p.CON 6 (by decide) h i
  have hme : (p.run IP_I2C_Master_Enable).CON = consetWrite p.CON (2 ^ 6) := rfl
  have hse : (p.run IP_I2C_Slave_Enable).CON = p.CON ||| 0x44 := by
    have : p.run IP_I2C_Slave_Enable = { p with CON := consetWrite p.CON 0x44 } := rfl
    rw [this]
    exact consetWrite_eq h (by decide)
  have hslave : (p.run (IP_I2C_Slave_Enable ++ IP_I2C_Disable)).CON.testBit 2 = true := by
    rw [run_append, run_disable]
    show (conclrWrite (p.run IP_I2C_Slave_Enable).CON (2 ^ 6)).testBit 2 = true
    rw [hse, conclrWrite_testBit _ 6 (by decide) (Nat.or_lt_two_pow h (by decide))]
    have e44 : (0x44 : Nat) = 2 ^ 6 ||| 2 ^ 2 := by decide
    simp only [Nat.testBit_or, e44, Nat.testBit_two_pow]
    simp
  refine ⟨by simp [IP_I2C_Disable], run_disable p, ?_, ?_, ?_, ?_, hslave, ?_⟩
  · rw [hbits]; simp [CtrlFlag.bit]
  · intro i hi
    rw [hbits]
    simp only [CtrlFlag.bit] at hi
    simp [hi]
  · intro f hf
    rw [hbits]
    cases f <;> simp_all [CtrlFlag.bit]
  · intro hclear
    rw [run_append, run_disable]
    have hcon : conclrWrite (p.run IP_I2C_Master_Enable).CON (2 ^ 6) = p.CON := by
      rw [hme]
      apply Nat.eq_of_testBit_eq
      intro i
      have := set_then_clear_bits p.CON .I2EN h i
      simp only [CtrlFlag.setMask, CtrlFlag.clrMask, CtrlFlag.bit, I2C_I2CONSET_I2EN,
        I2C_I2CONCLR_I2ENC] at this
      have e1 : (0x40 : Nat) = 2 ^ 6 := by norm_num
      have e2 : (1 <<< 6 : Nat) = 2 ^ 6 := by decide
      rw [e1, e2] at this
      rw [this]
      by_cases hi : i = 6
      · subst hi
        simp only [CtrlFlag.bit] at hclear
        simp [hclear]
      · simp [hi]
    have hrest : p.run IP_I2C_Master_Enable = { p with CON := (p.run IP_I2C_Master_Enable).CON } :=
      rfl
    rw [hrest]
    simp only [hcon]
  · intro hclear hEq
    rw [hEq] at hslave
    simp only [CtrlFlag.bit] at hclear
    rw [hclear] at hslave
    exact absurd hslave (by decide)

/-- Claim C11 for the register block after reset. -/
theorem disable_clears_enable_only_witness :
    resetBlock.CON < 2 ^ 32 ∧
    (resetBlock.run IP_I2C_Disable).CON.testBit CtrlFlag.I2EN.bit = false ∧
    (resetBlock.run (IP_I2C_Slave_Enable ++ IP_I2C_Disable)).CON.testBit CtrlFlag.AA.bit = true :=
  ⟨by decide, (disable_clears_enable_only resetBlock (by decide)).2.2.1,
    (disable_clears_enable_only resetBlock (by decide)).2.2.2.2.2.2.1⟩

/-! ### C12: own slave address encoding -/

set_option maxRecDepth 100000 in
/-- Claim C12. For every 8-bit mask value `n`, `I2C_I2MASK_MASK(n)` equals `n`
on bits 7:1, has bit 0 clear and so never overlaps `I2C_I2ADR_GC`, stays
within `I2C_I2ADR_BITMASK` and is idempotent.  The register block has exactly
four address registers, `ADR0`..`ADR3`, and exactly four mask registers,
`MASK[0]`..`MASK[3]`: every channel 0..3 has its address and its mask register
in the block, different channels have different registers, and no further
field is an address or mask register. -/
theorem own_address_mask_encoding (n : Nat) (ch ch2 : Fin 4) (h : n < 256) :
    (∀ i, 1 ≤ i → i ≤ 7 → (I2C_I2MASK_MASK n).testBit i = n.testBit i) ∧
    (I2C_I2MASK_MASK n).testBit 0 = false ∧
    I2C_I2MASK_MASK n &&& I2C_I2ADR_GC = 0 ∧
    I2C_I2MASK_MASK n &&& I2C_I2ADR_BITMASK = I2C_I2MASK_MASK n ∧
    I2C_I2MASK_MASK (I2C_I2MASK_MASK n) = I2C_I2MASK_MASK n ∧
    IP_I2C_001_T_fields.filter Reg.isAddress = [.ADR0, .ADR1, .ADR2, .ADR3] ∧
    IP_I2C_001_T_fields.filter Reg.isMask = [.MASK 0, .MASK 1, .MASK 2, .MASK 3] ∧
    IP_I2C_001_T_fields.filter Reg.isAddress = List.ofFn ownAddressReg ∧
    IP_I2C_001_T_fields.filter Reg.isMask = List.ofFn ownMaskReg ∧
    ownAddressReg ch ∈ IP_I2C_001_T_fields ∧ ownMaskReg ch ∈ IP_I2C_001_T_fields ∧
    ownAddressReg ch ≠ ownMaskReg ch2 ∧
    (ch ≠ ch2 → ownAddressReg ch ≠ ownAddressReg ch2 ∧ ownMaskReg ch ≠ ownMaskReg ch2) := by
  have hn : ∀ n, n < 256 →
      (∀ i, i < 8 → 1 ≤ i → (I2C_I2MASK_MASK n).testBit i = n.testBit i) ∧
      (I2C_I2MASK_MASK n).testBit 0 = false ∧
      I2C_I2MASK_MASK n &&& I2C_I2ADR_GC = 0 ∧
      I2C_I2MASK_MASK n &&& I2C_I2ADR_BITMASK = I2C_I2MASK_MASK n ∧
      I2C_I2MASK_MASK (I2C_I2MASK_MASK n) = I2C_I2MASK_MASK n := by
    decide
  have hch : ∀ ch ch2 : Fin 4,
      ownAddressReg ch ∈ IP_I2C_001_T_fields ∧ ownMaskReg ch ∈ IP_I2C_001_T_fields ∧
      ownAddressReg ch ≠ ownMaskReg ch2 ∧
      (ch ≠ ch2 → ownAddressReg ch ≠ ownAddressReg ch2 ∧ ownMaskReg ch ≠ ownMaskReg ch2) := by
    decide
  obtain ⟨a1, a2, a3, a4, a5⟩ := hn n h
  obtain ⟨b1, b2, b3, b4⟩ := hch ch ch2
  exact ⟨fun i h1 h7 => a1 i (by omega) h1, a2, a3, a4, a5, by decide, by decide, by decide,
    by decide, b1, b2, b3, b4⟩

/-- Claim C12 for the mask value 0xFF on channels 1 and 2. -/
theorem own_address_mask_encoding_witness :
    (0xFF : Nat) < 256 ∧ I2C_I2MASK_MASK 0xFF &&& I2C_I2ADR_GC = 0 ∧
    I2C_I2MASK_MASK (I2C_I2MASK_MASK 0xFF) = I2C_I2MASK_MASK 0xFF ∧
    ownAddressReg 1 ∈ IP_I2C_001_T_fields :=
  ⟨by decide, (own_address_mask_encoding 0xFF 1 2 (by decide)).2.2.1,
    (own_address_mask_encoding 0xFF 1 2 (by decide)).2.2.2.2.1,
    (own_address_mask_encoding 0xFF 1 2 (by decide)).2.2.2.2.2.2.2.2.2.1⟩

/-! ### C13: shared status codes -/

/-- Claim C13. Two named `I2C_I2STAT_*` constants have the same value only if
they are the same constant or one of the three master-transmit and
master-receive pairs for start (0x08), repeated start (0x10) and arbitration
lost (0x38); these three pairs do share their value, so the value alone does
not tell master-transmit from master-receive there, and every named constant
outside the three pairs is the only one with its value. -/
theorem named_codes_shared_pairs (e1 e2 : StatusCategory × Nat)
    (h1 : e1 ∈ namedCodes) (h2 : e2 ∈ namedCodes) (hv : e1.2 = e2.2) :
    (e1.1 = e2.1 ∨
      (e1.1, e2.1) ∈ [(StatusCategory.m_tx_start, StatusCategory.m_rx_start),
        (.m_rx_start, .m_tx_start), (.m_tx_restart, .m_rx_restart),
        (.m_rx_restart, .m_tx_restart), (.m_tx_arb_lost, .m_rx_arb_lost),
        (.m_rx_arb_lost, .m_tx_arb_lost)]) ∧
    (e1.2 ∉ [0x08, 0x10, 0x38] → e1.1 = e2.1) ∧
    ((StatusCategory.m_tx_start, 0x08) ∈ namedCodes ∧
      (StatusCategory.m_rx_start, 0x08) ∈ namedCodes) ∧
    ((StatusCategory.m_tx_restart, 0x10) ∈ namedCodes ∧
      (StatusCategory.m_rx_restart, 0x10) ∈ namedCodes) ∧
    ((StatusCategory.m_tx_arb_lost, 0x38) ∈ namedCodes ∧
      (StatusCategory.m_rx_arb_lost, 0x38) ∈ namedCodes) ∧
    (namedCodes.map Prod.fst).Nodup ∧
    (namedCodes.map Prod.snd).dedup.length + 3 = namedCodes.length := by
  have hall : ∀ e1 ∈ namedCodes, ∀ e2 ∈ namedCodes, e1.2 = e2.2 →
      (e1.1 = e2.1 ∨
        (e1.1, e2.1) ∈ [(StatusCategory.m_tx_start, StatusCategory.m_rx_start),
          (.m_rx_start, .m_tx_start), (.m_tx_restart, .m_rx_restart),
          (.m_rx_restart, .m_tx_restart), (.m_tx_arb_lost, .m_rx_arb_lost),
          (.m_rx_arb_lost, .m_tx_arb_lost)]) ∧
      (e1.2 ∉ [0x08, 0x10, 0x38] → e1.1 = e2.1) := by
    decide
  obtain ⟨a1, a2⟩ := hall e1 h1 e2 h2 hv
  exact ⟨a1, a2, by decide, by decide, by decide, by decide, by decide⟩

/-- Claim C13 at the two constants with value 0x38. -/
theorem named_codes_shared_pairs_witness :
    (StatusCategory.m_tx_arb_lost, I2C_I2STAT_M_TX_ARB_LOST) ∈ namedCodes ∧
    (StatusCategory.m_rx_arb_lost, I2C_I2STAT_M_RX_ARB_LOST) ∈ namedCodes ∧
    I2C_I2STAT_M_TX_ARB_LOST = I2C_I2STAT_M_RX_ARB_LOST ∧
    (StatusCategory.m_tx_arb_lost = StatusCategory.m_rx_arb_lost ∨
      (StatusCategory.m_tx_arb_lost, StatusCategory.m_rx_arb_lost) ∈
        [(StatusCategory.m_tx_start, StatusCategory.m_rx_start),
          (.m_rx_start, .m_tx_start), (.m_tx_restart, .m_rx_restart),
          (.m_rx_restart, .m_tx_restart), (.m_tx_arb_lost, .m_rx_arb_lost),
          (.m_rx_arb_lost, .m_tx_arb_lost)]) :=
  ⟨by decide, by decide, rfl,
    (named_codes_shared_pairs (.m_tx_arb_lost, I2C_I2STAT_M_TX_ARB_LOST)
      (.m_rx_arb_lost, I2C_I2STAT_M_RX_ARB_LOST) (by decide) (by decide) rfl).1⟩

/-! ### C14: status code mask -/

/-- Claim C14. Every named `I2C_I2STAT_*` constant `c` satisfies
`c & I2C_STAT_CODE_BITMASK = c`, its low three bits being zero;
`I2C_STAT_CODE_ERROR` (0xFF) is not of this form, and no raw status `s`
masked with `I2C_STAT_CODE_BITMASK` equals `I2C_STAT_CODE_ERROR`. -/
theorem named_codes_within_mask (e : StatusCategory × Nat) (s : Nat) (h : e ∈ namedCodes) :
    e.2 &&& I2C_STAT_CODE_BITMASK = e.2 ∧ e.2 % 8 = 0 ∧
    I2C_STAT_CODE_ERROR = 0xFF ∧
    I2C_STAT_CODE_ERROR &&& I2C_STAT_CODE_BITMASK ≠ I2C_STAT_CODE_ERROR ∧
    s &&& I2C_STAT_CODE_BITMASK ≠ I2C_STAT_CODE_ERROR := by
  have hall : ∀ e ∈ namedCodes, e.2 &&& I2C_STAT_CODE_BITMASK = e.2 ∧ e.2 % 8 = 0 := by
    decide
  refine ⟨(hall e h).1, (hall e h).2, rfl, by decide, ?_⟩
  have hle : s &&& I2C_STAT_CODE_BITMASK ≤ I2C_STAT_CODE_BITMASK := Nat.and_le_right
  have hlt : I2C_STAT_CODE_BITMASK < I2C_STAT_CODE_ERROR := by decide
  omega

/-- Claim C14 at the constant `I2C_I2STAT_S_TX_LAST_DAT_ACK` and the raw status 0xFF. -/
theorem named_codes_within_mask_witness :
    (StatusCategory.s_tx_last_dat_ack, I2C_I2STAT_S_TX_LAST_DAT_ACK) ∈ namedCodes ∧
    I2C_I2STAT_S_TX_LAST_DAT_ACK &&& I2C_STAT_CODE_BITMASK = I2C_I2STAT_S_TX_LAST_DAT_ACK ∧
    (0xFF : Nat) &&& I2C_STAT_CODE_BITMASK ≠ I2C_STAT_CODE_ERROR :=
  ⟨by decide,
    (named_codes_within_mask (.s_tx_last_dat_ack, I2C_I2STAT_S_TX_LAST_DAT_ACK) 0xFF
      (by decide)).1,
    (named_codes_within_mask (.s_tx_last_dat_ack, I2C_I2STAT_S_TX_LAST_DAT_ACK) 0xFF
      (by decide)).2.2.2.2⟩

/-! ### C15: state handle return values -/

/-- Claim C15. `I2C_OK` is 0; `I2C_BYTE_SENT`, `I2C_BYTE_RECV`,
`I2C_LAST_BYTE_RECV`, `I2C_SEND_END`, `I2C_RECV_END` and `I2C_STA_STO_RECV` are
the six single bits 0x01..0x20, pairwise distinct, all below the error flag
0x10000000 and disjoint from the `I2C_SETUP_STATUS_*` bits 8, 9 and 10; the two
definitions of `I2C_STA_STO_RECV` agree; and `I2C_NAK_RECV` is
`I2C_ERR | I2C_BYTE_SENT`, so the bit test `(s & I2C_BYTE_SENT) != 0` holds for
`s = I2C_NAK_RECV` although `I2C_NAK_RECV` differs from `I2C_BYTE_SENT`. -/
theorem state_handle_values_flag_set :
    I2C_OK = 0 ∧
    [I2C_BYTE_SENT, I2C_BYTE_RECV, I2C_LAST_BYTE_RECV, I2C_SEND_END, I2C_RECV_END,
        I2C_STA_STO_RECV] = (List.range 6).map (fun k => 2 ^ k) ∧
    [I2C_BYTE_SENT, I2C_BYTE_RECV, I2C_LAST_BYTE_RECV, I2C_SEND_END, I2C_RECV_END,
        I2C_STA_STO_RECV].Nodup ∧
    (∀ v ∈ [I2C_BYTE_SENT, I2C_BYTE_RECV, I2C_LAST_BYTE_RECV, I2C_SEND_END, I2C_RECV_END,
        I2C_STA_STO_RECV],
      v < I2C_ERR ∧ I2C_CheckError v = 0 ∧
        v &&& (I2C_SETUP_STATUS_ARBF ||| I2C_SETUP_STATUS_NOACKF ||| I2C_SETUP_STATUS_DONE)
          = 0) ∧
    [I2C_SETUP_STATUS_ARBF, I2C_SETUP_STATUS_NOACKF, I2C_SETUP_STATUS_DONE] =
      [2 ^ 8, 2 ^ 9, 2 ^ 10] ∧
    I2C_ERR = 0x10000000 ∧
    I2C_STA_STO_RECV_first = I2C_STA_STO_RECV ∧
    I2C_NAK_RECV = I2C_ERR ||| I2C_BYTE_SENT ∧
    I2C_NAK_RECV &&& I2C_BYTE_SENT ≠ 0 ∧
    I2C_NAK_RECV ≠ I2C_BYTE_SENT := by
  decide

/-! ### C16: instance addresses and block layout -/

/-- Claim C16. In a build with `CHIP_LPC43XX` defined and none of the
`CHIP_LPC175X_6X`, `CHIP_LPC177X_8X`, `CHIP_LPC407X_8X` macros: all peripheral
base addresses of `chip.h` are pairwise distinct and multiples of 0x1000; the
register block has 16 words, 0x40 bytes, with `CONSET` at offset 0x00, `STAT`
at 0x04, `DAT` at 0x08, `CONCLR` at 0x18 and `MASK[0..3]` at 0x30..0x3C; no
address lies in both `[LPC_I2C0_BASE, +0x40)` and `[LPC_I2C1_BASE, +0x40)`, and
a peripheral base address inside one of the two ranges is the I2C base itself;
the identifiers are exactly `I2C0 = 0` and `I2C1 = 1`, and they name the two
different I2C base addresses, one each. -/
theorem i2c_instances_address_independent (d : ChipDefines) (a x : Nat)
    (h43 : d.CHIP_LPC43XX = true)
    (hno : d.CHIP_LPC175X_6X = false ∧ d.CHIP_LPC177X_8X = false ∧ d.CHIP_LPC407X_8X = false)
    (ha : a ∈ peripheralBases) :
    peripheralBases.Nodup ∧ a % 0x1000 = 0 ∧
    IP_I2C_001_T_fields.length = 16 ∧ IP_I2C_001_T_fields.Nodup ∧ IP_I2C_001_T_size = 0x40 ∧
    Reg.CONSET.offset = 0x00 ∧ Reg.STAT.offset = 0x04 ∧ Reg.DAT.offset = 0x08 ∧
    Reg.CONCLR.offset = 0x18 ∧
    [(Reg.MASK 0).offset, (Reg.MASK 1).offset, (Reg.MASK 2).offset, (Reg.MASK 3).offset] =
      [0x30, 0x34, 0x38, 0x3C] ∧
    ¬ ((LPC_I2C0_BASE ≤ x ∧ x < LPC_I2C0_BASE + IP_I2C_001_T_size) ∧
        (LPC_I2C1_BASE ≤ x ∧ x < LPC_I2C1_BASE + IP_I2C_001_T_size)) ∧
    (LPC_I2C0_BASE ≤ a ∧ a < LPC_I2C0_BASE + IP_I2C_001_T_size → a = LPC_I2C0_BASE) ∧
    (LPC_I2C1_BASE ≤ a ∧ a < LPC_I2C1_BASE + IP_I2C_001_T_size → a = LPC_I2C1_BASE) ∧
    IP_I2C_ID_T.values d = [(.I2C0, 0), (.I2C1, 1)] ∧
    (IP_I2C_ID_T.enumerators d).map IP_I2C_ID_T.base = i2cBases.map some ∧
    i2cBases.Nodup ∧ (∀ b ∈ i2cBases, b ∈ peripheralBases) := by
  have hall : ∀ a ∈ peripheralBases, a % 0x1000 = 0 ∧
      (LPC_I2C0_BASE ≤ a ∧ a < LPC_I2C0_BASE + IP_I2C_001_T_size → a = LPC_I2C0_BASE) ∧
      (LPC_I2C1_BASE ≤ a ∧ a < LPC_I2C1_BASE + IP_I2C_001_T_size → a = LPC_I2C1_BASE) := by
    decide
  obtain ⟨a1, a2, a3⟩ := hall a ha
  have hsize : IP_I2C_001_T_size = 0x40 := by decide
  have henum : IP_I2C_ID_T.enumerators d = [.I2C0, .I2C1] := by
    obtain ⟨h1, h2, h3⟩ := hno
    simp [IP_I2C_ID_T.enumerators, h43, h1, h2, h3]
  refine ⟨by decide, a1, by decide, by decide, hsize, by decide, by decide, by decide,
    by decide, by decide, ?_, a2, a3, ?_, ?_, by decide, by decide⟩
  · rw [hsize]
    simp only [LPC_I2C0_BASE, LPC_I2C1_BASE]
    omega
  · simp only [IP_I2C_ID_T.values, henum]
    decide
  · rw [henum]
    decide

/-- Claim C16 for the build with only `CHIP_LPC43XX` defined, at the base
address of I2C1. -/
theorem i2c_instances_address_independent_witness :
    LPC_I2C1_BASE ∈ peripheralBases ∧ LPC_I2C1_BASE % 0x1000 = 0 ∧
    IP_I2C_ID_T.values ⟨false, false, false, false, true⟩ = [(.I2C0, 0), (.I2C1, 1)] :=
  ⟨by decide,
    (i2c_instances_address_independent ⟨false, false, false, false, true⟩ LPC_I2C1_BASE
      (LPC_I2C0_BASE + 0x20) rfl ⟨rfl, rfl, rfl⟩ (by decide)).2.1,
    (i2c_instances_address_independent ⟨false, false, false, false, true⟩ LPC_I2C1_BASE
      (LPC_I2C0_BASE + 0x20) rfl ⟨rfl, rfl, rfl⟩ (by decide)).2.2.2.2.2.2.2.2.2.2.2.2.2.1⟩

/-! ### C17: macro argument without parentheses -/

theorem mask_expansion_or2 (a b : Nat) :
    I2C_I2MASK_MASK_expansion (COrChain.or2 a b) = a ||| (b &&& 0xFE) := by
  simp [I2C_I2MASK_MASK_expansion, COrChain.or2, COrChain.appendAnd, COrChain.eval,
    CAndChain.eval]

theorem mask_expansion_single (n : Nat) :
    I2C_I2MASK_MASK_expansion (COrChain.single n) = n &&& 0xFE := by
  simp [I2C_I2MASK_MASK_expansion, COrChain.single, COrChain.appendAnd, COrChain.eval,
    CAndChain.eval]

/-- Claim C17. `I2C_I2MASK_MASK` substitutes its argument without
parentheses: the expansion of `I2C_I2MASK_MASK(a | b)` has the value
`a | (b & 0xFE)`; for the 8-bit values `a = 1`, `b = 0` this is 1, differs from
the mask field `(a | b) & 0xFE = 0` and has bit 0 set.  For every argument that
is a single variable or literal the expansion equals the mask field,
`n & 0xFE`. -/
theorem mask_macro_unparenthesised :
    (∀ a b : Nat, I2C_I2MASK_MASK_expansion (COrChain.or2 a b) = a ||| (b &&& 0xFE)) ∧
    (∀ a b : Nat, I2C_I2MASK_MASK_field (COrChain.or2 a b) = (a ||| b) &&& 0xFE) ∧
    ((1 : Nat) < 256 ∧ (0 : Nat) < 256 ∧
      I2C_I2MASK_MASK_expansion (COrChain.or2 1 0) = 1 ∧
      I2C_I2MASK_MASK_field (COrChain.or2 1 0) = 0 ∧
      I2C_I2MASK_MASK_expansion (COrChain.or2 1 0) ≠ I2C_I2MASK_MASK_field (COrChain.or2 1 0) ∧
      (I2C_I2MASK_MASK_expansion (COrChain.or2 1 0)).testBit 0 = true) ∧
    (∀ n : Nat, I2C_I2MASK_MASK_expansion (COrChain.single n) =
        I2C_I2MASK_MASK_field (COrChain.single n) ∧
      I2C_I2MASK_MASK_expansion (COrChain.single n) = I2C_I2MASK_MASK n) := by
  refine ⟨mask_expansion_or2, ?_, ⟨by decide, by decide, by decide, by decide, by decide,
    by decide⟩, ?_⟩
  · intro a b
    simp [I2C_I2MASK_MASK_field, COrChain.or2, COrChain.eval, CAndChain.eval]
  · intro n
    rw [mask_expansion_single]
    simp [I2C_I2MASK_MASK_field, COrChain.single, COrChain.eval, CAndChain.eval,
      I2C_I2MASK_MASK]

end I2C
